import Mathlib

/-! The acquisition engine of mk_arcade_joystick_rpi.

A shallow embedding of `mk_arcade_joystick_rpi.c` and the properties of its
sampling pass, serial exchange, event report, open/close life cycle and pad
setup.

Conventions of the embedding.

* A C array reached through a pointer (`unsigned short *data`, `char *tbuf`,
  `int gpioMap[]`) is a function from the index to the cell: the callee sees
  no length. Cells of `unsigned short` are stored modulo `2 ^ 16`, cells of
  `char` modulo `2 ^ 8` (the driver targets the Raspberry Pi, where plain
  `char` is unsigned).
* The level register `*(gpio + 13)` is volatile: `lev k` is the value the
  `k`-th read of the register returns; the hardware state counts the reads and
  logs every register access and delay.
* A shift `1 << g` or `x >> g` is defined in C only for `0 ≤ g < 32`; the
  functions that shift by a pin number return `none` outside that range.
-/

namespace MkArcade

/-! ## Constants, tables and types -/

/-- The number of pads, `#define MK_MAX_DEVICES 2`. -/
def MK_MAX_DEVICES : Nat := 2

/-- The number of digital lines of a pad, `mk_max_arcade_buttons = 12`. -/
def mk_max_arcade_buttons : Nat := 12

/-- The enumerator `MK_NONE = 0` of `enum mk_type`. -/
def MK_NONE : Int := 0

/-- The enumerator `MK_ARCADE_GPIO` of `enum mk_type`. -/
def MK_ARCADE_GPIO : Int := 1

/-- The enumerator `MK_ARCADE_GPIO_BPLUS` of `enum mk_type`. -/
def MK_ARCADE_GPIO_BPLUS : Int := 2

/-- The enumerator `MK_ARCADE_GPIO_CUSTOM` of `enum mk_type`. -/
def MK_ARCADE_GPIO_CUSTOM : Int := 3

/-- The enumerator `MK_MAX` of `enum mk_type`, one past the last pad type. -/
def MK_MAX : Int := 4

/-- Modelled from the spec: the button and axis identities of the event sink are
constants of the kernel's input headers, which are not part of the source tree;
they are kept symbolic, under the names the source uses. -/
inductive InputCode
  | BTN_START | BTN_SELECT | BTN_EAST | BTN_SOUTH | BTN_TR | BTN_WEST | BTN_NORTH | BTN_TL
  | BTN_DPAD_UP | BTN_DPAD_DOWN | BTN_DPAD_LEFT | BTN_DPAD_RIGHT
  | ABS_X | ABS_Y | ABS_RX | ABS_RY | ABS_HAT0X | ABS_HAT0Y
  deriving DecidableEq, Repr

/-- One call to the event sink: `input_report_key (dev, code, value)`,
`input_report_abs (dev, code, value)` or `input_sync (dev)`, with the arguments
as the driver passes them. -/
inductive InputEvent
  | key (dev : Nat) (code : InputCode) (value : Int)
  | abs (dev : Nat) (code : InputCode) (value : Int)
  | sync (dev : Nat)
  deriving DecidableEq, Repr

/-- One access to the pin hardware, in program order. -/
inductive PinOp
  /-- The statement `GPIO_SET = val`, a write to `*(gpio + 7)`. -/
  | set (val : Nat)
  /-- The statement `GPIO_CLR = val`, a write to `*(gpio + 10)`. -/
  | clr (val : Nat)
  /-- The macro `GPIO_READ (g)`, a read of `*(gpio + 13)` shifted down by `g`. -/
  | read (g : Int)
  /-- The delay `udelay (us)`. -/
  | udelay (us : Nat)
  /-- The macro `INP_GPIO (g)`. -/
  | inp (g : Int)
  /-- The macro `OUT_GPIO (g)`. -/
  | out (g : Int)
  /-- The call `setGpioPullUps (mask)`. -/
  | pullups (mask : Nat)
  deriving DecidableEq, Repr

/-- The pin hardware as the driver sees it: how many times the level register
has been read, and the log of accesses. -/
structure GpioHw where
  t : Nat
  trace : List PinOp

/-- Appends one access to the log. -/
def GpioHw.log (hw : GpioHw) (op : PinOp) : GpioHw :=
  { hw with trace := hw.trace ++ [op] }

/-- The `struct mk_pad`: device handle, pad type and the 12-entry pin map
(`-1` marks an unused slot). -/
structure mk_pad where
  dev : Nat
  type : Int
  gpio_maps : Nat → Int

/-- A C array initialiser as a function of the index. -/
def ofList {α : Type} (l : List α) (d : α) : Nat → α := fun i => l.getD i d

/-- The table `mk_arcade_gpio_maps`: up, down, left, right, start, select, a, b,
tr, y, x, tl. -/
def mk_arcade_gpio_maps : List Int := [4, 17, 27, 22, 10, 9, 25, 24, 23, 18, 15, 14]

/-- The table `mk_arcade_gpio_maps_bplus`. -/
def mk_arcade_gpio_maps_bplus : List Int := [11, 5, 6, 13, 19, 26, 21, 20, 16, 12, 7, 8]

/-- The table `mk_arcade_gpio_btn`. -/
def mk_arcade_gpio_btn : List InputCode :=
  [.BTN_START, .BTN_SELECT, .BTN_EAST, .BTN_SOUTH, .BTN_TR, .BTN_WEST, .BTN_NORTH, .BTN_TL]

/-- A store into an `unsigned short` cell: `data[i] = v`. -/
def store16 (data : Nat → Nat) (i v : Nat) : Nat → Nat :=
  fun k => if k = i then v % 65536 else data k

/-- A store into a `char` cell: `buf[i] = v`. -/
def store8 (buf : Nat → Nat) (i v : Nat) : Nat → Nat :=
  fun k => if k = i then v % 256 else buf k

/-- The C expression `1 << g` for an `int g`, as a 32-bit pattern. -/
def shl_one (g : Int) : Option Nat :=
  if 0 ≤ g ∧ g < 32 then some (1 <<< g.toNat) else none

/-! ## GPIO utilities -/

/-- The macro `GPIO_READ (g)`, `*(gpio + 13) >> g & 1`. -/
def GPIO_READ (lev : Nat → Nat) (g : Int) (hw : GpioHw) : Option (Nat × GpioHw) :=
  if 0 ≤ g ∧ g < 32 then
    some ((lev hw.t >>> g.toNat) &&& 1, { t := hw.t + 1, trace := hw.trace ++ [PinOp.read g] })
  else none

/-- The body of the loop of `getPullUpMask`. -/
def getPullUpMask_body (gpioMap : Nat → Int) (mask : Nat) (i : Nat) : Option Nat :=
  if gpioMap i ≠ -1 then
    match shl_one (gpioMap i) with
    | some pin_mask => some (mask ||| pin_mask)
    | none => none
  else some mask

/-- The function `getPullUpMask`; the `int` it returns is given as its 32-bit
pattern. -/
def getPullUpMask (gpioMap : Nat → Int) : Option Nat :=
  (List.range 12).foldlM (getPullUpMask_body gpioMap) 0

/-! ## Digital sample reader -/

/-- The body of the loop of `mk_gpio_read_packet`. -/
def mk_gpio_read_packet_body (pad : mk_pad) (lev : Nat → Nat)
    (st : (Nat → Nat) × GpioHw) (i : Nat) : Option ((Nat → Nat) × GpioHw) :=
  if pad.gpio_maps i ≠ -1 then
    match GPIO_READ lev (pad.gpio_maps i) st.2 with
    | some (read, hw) => some (store16 st.1 i (if read = 0 then 1 else 0), hw)
    | none => none
  else some (store16 st.1 i 0, st.2)

/-- The function `mk_gpio_read_packet`. -/
def mk_gpio_read_packet (pad : mk_pad) (lev : Nat → Nat) (data : Nat → Nat) (hw : GpioHw) :
    Option ((Nat → Nat) × GpioHw) :=
  (List.range mk_max_arcade_buttons).foldlM (mk_gpio_read_packet_body pad lev) (data, hw)

/-! ## Event normalizer -/

/-- The C operator `!` on an `unsigned short`, as an `int`. -/
def lnot (x : Nat) : Int := if x = 0 then 1 else 0

/-- The function `mk_input_report`: the calls it makes to the event sink, in
order. -/
def mk_input_report (pad : mk_pad) (data : Nat → Nat) : List InputEvent :=
  (if lnot (data 0) - lnot (data 1) < 0 then
      [InputEvent.key pad.dev .BTN_DPAD_UP 0, InputEvent.key pad.dev .BTN_DPAD_DOWN 1]
    else if lnot (data 0) - lnot (data 1) > 0 then
      [InputEvent.key pad.dev .BTN_DPAD_UP 1, InputEvent.key pad.dev .BTN_DPAD_DOWN 0]
    else
      [InputEvent.key pad.dev .BTN_DPAD_UP 0, InputEvent.key pad.dev .BTN_DPAD_DOWN 0]) ++
  (if lnot (data 2) - lnot (data 3) < 0 then
      [InputEvent.key pad.dev .BTN_DPAD_LEFT 0, InputEvent.key pad.dev .BTN_DPAD_RIGHT 1]
    else if lnot (data 2) - lnot (data 3) > 0 then
      [InputEvent.key pad.dev .BTN_DPAD_LEFT 1, InputEvent.key pad.dev .BTN_DPAD_RIGHT 0]
    else
      [InputEvent.key pad.dev .BTN_DPAD_LEFT 0, InputEvent.key pad.dev .BTN_DPAD_RIGHT 0]) ++
  [InputEvent.abs pad.dev .ABS_HAT0Y (lnot (data 0) - lnot (data 1)),
   InputEvent.abs pad.dev .ABS_HAT0X (lnot (data 2) - lnot (data 3)),
   InputEvent.abs pad.dev .ABS_RY (data (mk_max_arcade_buttons + 1)),
   InputEvent.abs pad.dev .ABS_RX (data (mk_max_arcade_buttons + 2)),
   InputEvent.abs pad.dev .ABS_Y (data (mk_max_arcade_buttons + 3)),
   InputEvent.abs pad.dev .ABS_X (data (mk_max_arcade_buttons + 4))] ++
  (List.range' 4 (mk_max_arcade_buttons - 4)).map
    (fun j => InputEvent.key pad.dev (mk_arcade_gpio_btn.getD (j - 4) .BTN_START) (data j)) ++
  [InputEvent.sync pad.dev]

/-- The values of the `input_report_abs` calls for one axis, in order. -/
def reportedAbs (code : InputCode) : List InputEvent → List Int
  | [] => []
  | InputEvent.abs _ c v :: es => if c = code then v :: reportedAbs code es else reportedAbs code es
  | _ :: es => reportedAbs code es

/-- The values of the `input_report_key` calls for one button, in order. -/
def reportedKey (code : InputCode) : List InputEvent → List Int
  | [] => []
  | InputEvent.key _ c v :: es => if c = code then v :: reportedKey code es else reportedKey code es
  | _ :: es => reportedKey code es

/-! ## Serial link driver -/

/-- The four lines of the serial link, the globals `SPI_MISO_LINE`,
`SPI_MOSI_LINE`, `SPI_CLK_LINE` and `SPI_CS_LINE`. -/
structure spi_pins where
  SPI_MISO_LINE : Int
  SPI_MOSI_LINE : Int
  SPI_CLK_LINE : Int
  SPI_CS_LINE : Int
  deriving DecidableEq, Repr

/-- The initial values of the four globals: 16, 26, 20, 21. -/
def spi_pins_default : spi_pins :=
  { SPI_MISO_LINE := 16, SPI_MOSI_LINE := 26, SPI_CLK_LINE := 20, SPI_CS_LINE := 21 }

/-- The statement `GPIO_SET = 1 << g`. -/
def gpio_set (g : Int) (hw : GpioHw) : Option GpioHw :=
  match shl_one g with
  | some v => some (hw.log (PinOp.set v))
  | none => none

/-- The statement `GPIO_CLR = 1 << g`. -/
def gpio_clr (g : Int) (hw : GpioHw) : Option GpioHw :=
  match shl_one g with
  | some v => some (hw.log (PinOp.clr v))
  | none => none

/-- The body of the inner loop of `spi_transfer`: bit `j` of byte `i`. -/
def spi_transfer_bit (L : spi_pins) (lev : Nat → Nat) (tbuf : Nat → Nat) (i : Nat)
    (st : (Nat → Nat) × GpioHw) (j : Nat) : Option ((Nat → Nat) × GpioHw) := do
  let hw ←
    if (tbuf i >>> j) &&& 1 ≠ 0 then gpio_set L.SPI_MOSI_LINE st.2
    else gpio_clr L.SPI_MOSI_LINE st.2
  let hw := hw.log (PinOp.udelay 100)
  let hw ← gpio_set L.SPI_CLK_LINE hw
  let (r, hw) ← GPIO_READ lev L.SPI_MISO_LINE hw
  let rbuf :=
    if r ≠ 0 then store8 st.1 i (st.1 i ||| (1 <<< j))
    else store8 st.1 i (st.1 i &&& (0xFFFFFFFF - (1 <<< j)))
  let hw := hw.log (PinOp.udelay 100)
  let hw ← gpio_clr L.SPI_CLK_LINE hw
  pure (rbuf, hw)

/-- The body of the outer loop of `spi_transfer`: byte `i`, bits 7 down to 0. -/
def spi_transfer_byte (L : spi_pins) (lev : Nat → Nat) (tbuf : Nat → Nat)
    (st : (Nat → Nat) × GpioHw) (i : Nat) : Option ((Nat → Nat) × GpioHw) :=
  (List.range 8).reverse.foldlM (spi_transfer_bit L lev tbuf i)
    (st.1, st.2.log (PinOp.udelay 100))

/-- The function `spi_transfer`. -/
def spi_transfer (L : spi_pins) (lev : Nat → Nat) (tbuf rbuf : Nat → Nat) (len : Nat)
    (hw : GpioHw) : Option ((Nat → Nat) × GpioHw) := do
  let hw ← gpio_clr L.SPI_CS_LINE hw
  let (rbuf, hw) ← (List.range len).foldlM (spi_transfer_byte L lev tbuf) (rbuf, hw)
  let hw ← gpio_set L.SPI_CS_LINE hw
  pure (rbuf, hw)

/-! ## ADC channel reader -/

/-- The expression `(receive_data[1] << 8 | receive_data[2]) & 0x3FF`. -/
def mcp3008_value (receive_data : Nat → Nat) : Nat :=
  ((receive_data 1 <<< 8) ||| receive_data 2) &&& 0x3FF

/-- The function `mk_mcp3008_read_packet`. The four decoded values are at most
1023, so the `int` differences `1023 - ry` and `1023 - y` are natural numbers. -/
def mk_mcp3008_read_packet (L : spi_pins) (lev : Nat → Nat) (data : Nat → Nat)
    (hw : GpioHw) : Option ((Nat → Nat) × GpioHw) := do
  let send_data := ofList [0x01, 0x80, 0x00] 0
  let receive_data := ofList [0x00, 0x00, 0x00] 0
  let (receive_data, hw) ← spi_transfer L lev send_data receive_data 3 hw
  let rx := mcp3008_value receive_data
  let send_data := store8 send_data 1 0x90
  let (receive_data, hw) ← spi_transfer L lev send_data receive_data 3 hw
  let ry := mcp3008_value receive_data
  let send_data := store8 send_data 1 0xa0
  let (receive_data, hw) ← spi_transfer L lev send_data receive_data 3 hw
  let x := mcp3008_value receive_data
  let send_data := store8 send_data 1 0xb0
  let (receive_data, hw) ← spi_transfer L lev send_data receive_data 3 hw
  let y := mcp3008_value receive_data
  let data := store16 data (mk_max_arcade_buttons + 1) (1023 - ry)
  let data := store16 data (mk_max_arcade_buttons + 2) rx
  let data := store16 data (mk_max_arcade_buttons + 3) (1023 - y)
  let data := store16 data (mk_max_arcade_buttons + 4) x
  pure (data, hw)

/-! ## One sampling pass -/

/-- The number of cells of the local array of `mk_process_packet`,
`unsigned short data[mk_max_arcade_buttons + 4]`. -/
def mk_process_packet_data_len : Nat := mk_max_arcade_buttons + 4

/-- The body of the loop of `mk_process_packet`: pad `i`. -/
def mk_process_packet_body (L : spi_pins) (lev : Nat → Nat) (pads : Nat → mk_pad)
    (st : List InputEvent × (Nat → Nat) × GpioHw) (i : Nat) :
    Option (List InputEvent × (Nat → Nat) × GpioHw) :=
  let pad := pads i
  if pad.type = MK_ARCADE_GPIO ∨ pad.type = MK_ARCADE_GPIO_BPLUS ∨
      pad.type = MK_ARCADE_GPIO_CUSTOM then do
    let (data, hw) ← mk_gpio_read_packet pad lev st.2.1 st.2.2
    let (data, hw) ← mk_mcp3008_read_packet L lev data hw
    pure (st.1 ++ mk_input_report pad data, data, hw)
  else some st

/-- The function `mk_process_packet`. Its local array is not initialised:
`data` is the memory at the address of the array when the function is entered,
cells `0 .. 15` being the array and the cells from 16 on the memory behind it. -/
def mk_process_packet (L : spi_pins) (lev : Nat → Nat) (pads : Nat → mk_pad)
    (data : Nat → Nat) (hw : GpioHw) : Option (List InputEvent × (Nat → Nat) × GpioHw) :=
  (List.range MK_MAX_DEVICES).foldlM (mk_process_packet_body L lev pads) ([], data, hw)

/-! ## Life cycle -/

/-- The `struct mk`: the pads, whether the timer is pending, the per-type pad
counters and the number of open devices. -/
structure mk where
  make ::
  pads : Nat → mk_pad
  timer_pending : Bool
  pad_count : Int → Int
  used : Int

/-- The function `mk_open`; `err` is what `mutex_lock_interruptible` returns.
The result is the return value and the new state. -/
def mk_open (err : Int) (m : mk) : Int × mk :=
  if err ≠ 0 then (err, m)
  else
    (0, { m with
          used := m.used + 1
          timer_pending := if m.used = 0 then true else m.timer_pending })

/-- The function `mk_close`. -/
def mk_close (m : mk) : mk :=
  { m with
    used := m.used - 1
    timer_pending := if m.used - 1 = 0 then false else m.timer_pending }

/-- The function `mk_timer`, the callback of the timer, on the state of the life
cycle: the sampling pass `mk_process_packet` reads `pads` only, then `mod_timer`
makes the timer pending again. -/
def mk_timer (m : mk) : mk :=
  { m with timer_pending := true }

/-- One step of the life cycle. -/
inductive LifeOp
  /-- A call of `mk_open` in which taking the mutex returns `err`. -/
  | mk_open (err : Int)
  /-- A call of `mk_close`. -/
  | mk_close
  /-- An expiry of the timer. -/
  | mk_timer
  deriving DecidableEq, Repr

/-- The state after one step. A timer that is not pending does not expire; one
that expires is taken off the pending list before its callback `mk_timer` runs,
so it is pending afterwards only if the callback makes it so. -/
def life_step (m : mk) : LifeOp → mk
  | LifeOp.mk_open err => (mk_open err m).2
  | LifeOp.mk_close => mk_close m
  | LifeOp.mk_timer =>
      if m.timer_pending then mk_timer { m with timer_pending := false } else m

/-- The state after a sequence of steps. -/
def life_run (m : mk) (ops : List LifeOp) : mk :=
  ops.foldl life_step m

/-- The state of `kzalloc` followed by `mutex_init` and `timer_setup`: all
zero, the timer not pending. -/
def mk_zero : mk :=
  { pads := fun _ => { dev := 0, type := 0, gpio_maps := fun _ => 0 }
    timer_pending := false
    pad_count := fun _ => 0
    used := 0 }

/-- Whether in a sequence of steps, entered with `depth` devices open, no
`mk_close` comes before the successful `mk_open` it matches. -/
def well_nested : Nat → List LifeOp → Bool
  | _, [] => true
  | depth, LifeOp.mk_open err :: ops =>
      if err ≠ 0 then well_nested depth ops else well_nested (depth + 1) ops
  | 0, LifeOp.mk_close :: _ => false
  | depth + 1, LifeOp.mk_close :: ops => well_nested depth ops
  | depth, LifeOp.mk_timer :: ops => well_nested depth ops

/-! ## Pad setup -/

/-- Modelled from the spec: the configuration error `EINVAL` is a constant of the
kernel's errno header, which is not part of the source tree. -/
def EINVAL : Int := 22

/-- Modelled from the spec: the resource exhaustion error `ENOMEM` is a constant
of the kernel's errno header, which is not part of the source tree. -/
def ENOMEM : Int := 12

/-- The module parameter `gpio`: the custom pin map and the number of entries
that were supplied. -/
structure gpio_config where
  mk_arcade_gpio_maps_custom : Nat → Int
  nargs : Nat

/-- The module parameter `spi`: the custom serial lines and the number of
entries that were supplied. -/
structure spi_config where
  spi_lines : Nat → Int
  nargs : Nat

/-- One call to the input core made by the setup. -/
inductive CoreOp
  /-- The call `input_allocate_device ()`. -/
  | allocate
  /-- The call `input_register_device (dev)`. -/
  | register (dev : Nat)
  /-- The call `input_free_device (dev)`. -/
  | free (dev : Nat)
  deriving DecidableEq, Repr

/-- What `mk_setup_pad` leaves behind: its return value, the `struct mk`, the
four line globals, the pin hardware and the calls made to the input core. -/
structure setup_result where
  ret : Int
  m : mk
  lines : spi_pins
  hw : GpioHw
  core : List CoreOp

/-- The function `spi_init`. -/
def spi_init (L : spi_pins) (hw : GpioHw) : Option GpioHw := do
  let hw := hw.log (PinOp.inp L.SPI_MISO_LINE)
  let hw := hw.log (PinOp.inp L.SPI_MOSI_LINE)
  let hw := hw.log (PinOp.out L.SPI_MOSI_LINE)
  let hw := hw.log (PinOp.inp L.SPI_CLK_LINE)
  let hw := hw.log (PinOp.out L.SPI_CLK_LINE)
  let hw := hw.log (PinOp.inp L.SPI_CS_LINE)
  let hw := hw.log (PinOp.out L.SPI_CS_LINE)
  let hw ← gpio_clr L.SPI_CLK_LINE hw
  let hw ← gpio_clr L.SPI_MISO_LINE hw
  let hw ← gpio_clr L.SPI_MOSI_LINE hw
  gpio_set L.SPI_CS_LINE hw

/-- The pin map `mk_setup_pad` copies into the pad: the `switch` on the pad type
has no default case. -/
def setup_gpio_maps (pad_type : Int) (cfg : gpio_config) (old : Nat → Int) : Nat → Int :=
  if pad_type = MK_ARCADE_GPIO then ofList mk_arcade_gpio_maps 0
  else if pad_type = MK_ARCADE_GPIO_BPLUS then ofList mk_arcade_gpio_maps_bplus 0
  else if pad_type = MK_ARCADE_GPIO_CUSTOM then cfg.mk_arcade_gpio_maps_custom
  else old

/-- The function `mk_setup_pad`. `alloc` is the handle `input_allocate_device`
returns (0 for `NULL`) and `reg_err` is what `input_register_device` returns.
The declarations of the capabilities of the device (event bits, axis ranges,
key bits) are left out: they have no effect on what is modelled here. In
`struct mk` the member `int used` follows the array `int pad_count[MK_MAX]`, so
for the pad type `MK_MAX` the cell `pad_count[pad_type]` that is incremented is
the cell of `used`: the increment is recorded under both names. -/
def mk_setup_pad (m : mk) (idx : Nat) (pad_type_arg : Int) (gpio_cfg : gpio_config)
    (spi_cfg : spi_config) (L : spi_pins) (alloc : Nat) (reg_err : Int) (hw : GpioHw) :
    Option setup_result :=
  let pad_type := pad_type_arg
  if pad_type < 1 then
    some { ret := -EINVAL, m := m, lines := L, hw := hw, core := [] }
  else if pad_type = MK_ARCADE_GPIO_CUSTOM ∧ gpio_cfg.nargs < 1 then
    some { ret := -EINVAL, m := m, lines := L, hw := hw, core := [] }
  else if pad_type = MK_ARCADE_GPIO_CUSTOM ∧ gpio_cfg.nargs ≠ 12 then
    some { ret := -EINVAL, m := m, lines := L, hw := hw, core := [] }
  else
    let pad : mk_pad := { m.pads idx with dev := alloc }
    if alloc = 0 then
      some { ret := -ENOMEM, m := { m with pads := Function.update m.pads idx pad },
             lines := L, hw := hw, core := [CoreOp.allocate] }
    else do
      let pad : mk_pad := { pad with type := pad_type }
      let pad_count := Function.update m.pad_count pad_type (m.pad_count pad_type + 1)
      let used := if pad_type = MK_MAX then m.used + 1 else m.used
      let pad : mk_pad :=
        { pad with gpio_maps := setup_gpio_maps pad_type gpio_cfg pad.gpio_maps }
      let hw := (List.range mk_max_arcade_buttons).foldl
        (fun h i => if pad.gpio_maps i ≠ -1 then h.log (PinOp.inp (pad.gpio_maps i)) else h) hw
      let mask ← getPullUpMask pad.gpio_maps
      let hw := hw.log (PinOp.pullups mask)
      let L : spi_pins :=
        if spi_cfg.nargs = 4 then
          { SPI_MISO_LINE := spi_cfg.spi_lines 0 % 256, SPI_MOSI_LINE := spi_cfg.spi_lines 1 % 256,
            SPI_CLK_LINE := spi_cfg.spi_lines 2 % 256, SPI_CS_LINE := spi_cfg.spi_lines 3 % 256 }
        else L
      let hw ← spi_init L hw
      let hw ← gpio_set L.SPI_CLK_LINE hw
      let hw ← gpio_clr L.SPI_CLK_LINE hw
      let hw := hw.log (PinOp.udelay 1000)
      if reg_err ≠ 0 then
        some { ret := reg_err,
               m := { m with pads := Function.update m.pads idx { pad with dev := 0 },
                             pad_count := pad_count, used := used },
               lines := L, hw := hw,
               core := [CoreOp.allocate, CoreOp.register alloc, CoreOp.free alloc] }
      else
        some { ret := 0,
               m := { m with pads := Function.update m.pads idx pad, pad_count := pad_count,
                             used := used },
               lines := L, hw := hw, core := [CoreOp.allocate, CoreOp.register alloc] }

/-! ## Vocabulary of the properties -/

/-- A pin number by which the code may shift: `0 ≤ g < 32`. -/
def valid_pin (g : Int) : Prop := 0 ≤ g ∧ g < 32

instance (g : Int) : Decidable (valid_pin g) := by unfold valid_pin; infer_instance

/-- A pin map whose 12 entries are each the sentinel `-1` or a valid pin. -/
def valid_map (gpio_maps : Nat → Int) : Prop :=
  ∀ i, i < 12 → gpio_maps i = -1 ∨ valid_pin (gpio_maps i)

/-- The number of slots before slot `n` that are mapped to a pin: the number of
reads of the level register `mk_gpio_read_packet` makes before it reaches slot
`n`. -/
def reads_before (gpio_maps : Nat → Int) (n : Nat) : Nat :=
  ((List.range n).filter (fun i => gpio_maps i ≠ -1)).length

/-- A mapped pin that reads 0 is pressed (the wiring is active-low); `w` is the
value of the level register. -/
def pin_pressed (gpio_maps : Nat → Int) (w : Nat) (i : Nat) : Prop :=
  gpio_maps i ≠ -1 ∧ (w >>> (gpio_maps i).toNat) &&& 1 = 0

instance (gpio_maps : Nat → Int) (w i : Nat) : Decidable (pin_pressed gpio_maps w i) := by
  unfold pin_pressed; infer_instance

/-- The pad of the scenarios: type custom, pin map
`[4,17,27,22,10,9,25,24,23,18,15,14]`. -/
def scenario_pad : mk_pad :=
  { dev := 1, type := MK_ARCADE_GPIO_CUSTOM,
    gpio_maps := ofList [4, 17, 27, 22, 10, 9, 25, 24, 23, 18, 15, 14] (-1) }

/-- The scenario pad with its up slot (slot 0) unused. -/
def unused_up_pad : mk_pad :=
  { dev := 1, type := MK_ARCADE_GPIO_CUSTOM,
    gpio_maps := ofList [-1, 17, 27, 22, 10, 9, 25, 24, 23, 18, 15, 14] (-1) }

/-- The level register of the scenario: pin 4 low, the other eleven mapped pins
high. -/
def scenario_levels : Nat :=
  [17, 27, 22, 10, 9, 25, 24, 23, 18, 15, 14].foldl (fun a p => a ||| (1 <<< p)) 0

/-- The pin hardware before any access. -/
def hw_init : GpioHw := { t := 0, trace := [] }

/-- The bitwise OR of `1 << pin` over the slots below `n` whose pin is not the
sentinel, starting from `mask`. -/
def or_of_pins (gpioMap : Nat → Int) (n : Nat) (mask : Nat) : Nat :=
  ((List.range n).filter (fun i => gpioMap i ≠ -1)).foldl
    (fun m i => m ||| (1 <<< (gpioMap i).toNat)) mask

/-- The four serial lines are pins by which the code may shift. -/
def valid_lines (L : spi_pins) : Prop :=
  (0 ≤ L.SPI_MISO_LINE ∧ L.SPI_MISO_LINE < 32) ∧ (0 ≤ L.SPI_MOSI_LINE ∧ L.SPI_MOSI_LINE < 32) ∧
  (0 ≤ L.SPI_CLK_LINE ∧ L.SPI_CLK_LINE < 32) ∧ (0 ≤ L.SPI_CS_LINE ∧ L.SPI_CS_LINE < 32)

instance (L : spi_pins) : Decidable (valid_lines L) := by unfold valid_lines; infer_instance

/-- The level of the data-in line at the `t`-th read of the level register. -/
def sampled_bit (L : spi_pins) (lev : Nat → Nat) (t : Nat) : Nat :=
  (lev t >>> L.SPI_MISO_LINE.toNat) &&& 1

/-- The byte shifted in, most significant bit first, by the eight reads of the
level register that start at read `t`: its bit `j` is the level at read
`t + (7 - j)`. -/
def sampled_byte (L : spi_pins) (lev : Nat → Nat) (t : Nat) : Nat :=
  (List.range 8).foldl (fun acc j => acc ||| (sampled_bit L lev (t + (7 - j)) <<< j)) 0

/-- The accesses of one clock pulse of `spi_transfer`, for bit `j` of the byte
`b`: data-out driven to the bit, delay, clock raised, data-in sampled, delay,
clock lowered. -/
def pulse_trace (L : spi_pins) (b j : Nat) : List PinOp :=
  [if (b >>> j) &&& 1 ≠ 0 then PinOp.set (1 <<< L.SPI_MOSI_LINE.toNat)
   else PinOp.clr (1 <<< L.SPI_MOSI_LINE.toNat),
   PinOp.udelay 100,
   PinOp.set (1 <<< L.SPI_CLK_LINE.toNat),
   PinOp.read L.SPI_MISO_LINE,
   PinOp.udelay 100,
   PinOp.clr (1 <<< L.SPI_CLK_LINE.toNat)]

/-- The clock pulses of `spi_transfer` for `len` bytes, in order: byte `i` from
0 up, bit `j` from 7 down. -/
def spi_pulses (len : Nat) : List (Nat × Nat) :=
  (List.range len).flatMap (fun i => (List.range 8).reverse.map (fun j => (i, j)))

/-- The accesses of `spi_transfer` for one byte `b`: a delay, then the eight
pulses for bits 7 down to 0. -/
def byte_trace (L : spi_pins) (b : Nat) : List PinOp :=
  PinOp.udelay 100 :: (List.range 8).reverse.flatMap (pulse_trace L b)

/-- The accesses of `spi_transfer` for the first `len` bytes of `tbuf`:
chip-select low, the bytes in order, chip-select high. -/
def spi_trace (L : spi_pins) (tbuf : Nat → Nat) (len : Nat) : List PinOp :=
  [PinOp.clr (1 <<< L.SPI_CS_LINE.toNat)] ++
  (List.range len).flatMap (fun i => byte_trace L (tbuf i)) ++
  [PinOp.set (1 <<< L.SPI_CS_LINE.toNat)]

/-- Bit `j` of the byte `x` set or cleared as `spi_transfer` does it, then
truncated to a `char`. -/
def put_bit (x j : Nat) (s : Bool) : Nat :=
  (if s then x ||| (1 <<< j) else x &&& (0xFFFFFFFF - (1 <<< j))) % 256

/-- The state after one clock pulse, given valid lines. -/
def bit_next (L : spi_pins) (lev : Nat → Nat) (tbuf : Nat → Nat) (i : Nat)
    (st : (Nat → Nat) × GpioHw) (j : Nat) : (Nat → Nat) × GpioHw :=
  (Function.update st.1 i (put_bit (st.1 i) j (decide (sampled_bit L lev st.2.t ≠ 0))),
   { t := st.2.t + 1, trace := st.2.trace ++ pulse_trace L (tbuf i) j })

/-- Whether an access is a delay. -/
def PinOp.is_delay : PinOp → Bool
  | PinOp.udelay _ => true
  | _ => false

/-- The pin accesses of one clock pulse for bit `j` of the byte `b`: data-out
driven to the bit, clock raised, data-in sampled, clock lowered. -/
def pin_pulse (L : spi_pins) (b j : Nat) : List PinOp :=
  [if (b >>> j) &&& 1 ≠ 0 then PinOp.set (1 <<< L.SPI_MOSI_LINE.toNat)
   else PinOp.clr (1 <<< L.SPI_MOSI_LINE.toNat),
   PinOp.set (1 <<< L.SPI_CLK_LINE.toNat),
   PinOp.read L.SPI_MISO_LINE,
   PinOp.clr (1 <<< L.SPI_CLK_LINE.toNat)]

/-- Byte `i` of the response to request `k` (counted from 0) of a call of
`mk_mcp3008_read_packet` whose first read of the level register is read `t`:
each request exchanges 3 bytes, 24 reads. -/
def adc_response (L : spi_pins) (lev : Nat → Nat) (t k : Nat) : Nat → Nat :=
  fun i => sampled_byte L lev (t + 24 * k + 8 * i)

/-- The value decoded from the response to request `k`. -/
def adc_raw (L : spi_pins) (lev : Nat → Nat) (t k : Nat) : Nat :=
  mcp3008_value (adc_response L lev t k)

/-- The request frame `{0x01, sel, 0x00}`. -/
def adc_frame (sel : Nat) : Nat → Nat := ofList [0x01, sel, 0x00] 0

/-- The levels of the ADC scenario: the data-in line (pin 16) spells the response
`{0x00, 0x02, 0xFF}` during the reads `start .. start + 23` and is low otherwise. -/
def scenario_adc_levels (start : Nat) : Nat → Nat :=
  fun k =>
    if start ≤ k ∧ k < start + 24 then
      ((([0x00, 0x02, 0xFF].getD ((k - start) / 8) 0) >>> (7 - (k - start) % 8)) &&& 1) <<< 16
    else 0

/-- Pad 0 is the scenario pad, pad 1 is not configured. -/
def scenario_pads : Nat → mk_pad :=
  fun i => if i = 0 then scenario_pad else { dev := 0, type := MK_NONE, gpio_maps := fun _ => 0 }

/-- A pad that `mk_process_packet` samples: its type is one of the three pad
types. -/
def live_pad (pad : mk_pad) : Prop :=
  pad.type = MK_ARCADE_GPIO ∨ pad.type = MK_ARCADE_GPIO_BPLUS ∨ pad.type = MK_ARCADE_GPIO_CUSTOM

instance (pad : mk_pad) : Decidable (live_pad pad) := by unfold live_pad; infer_instance

/-- No custom pin map was supplied. -/
def gpio_config_none : gpio_config := { mk_arcade_gpio_maps_custom := fun _ => 0, nargs := 0 }

/-- No custom serial lines were supplied. -/
def spi_config_none : spi_config := { spi_lines := fun _ => 0, nargs := 0 }

/-! ## Properties -/

set_option maxRecDepth 100000

theorem reads_before_succ (gpio_maps : Nat → Int) (n : Nat) :
    reads_before gpio_maps (n + 1) =
      reads_before gpio_maps n + (if gpio_maps n ≠ -1 then 1 else 0) := by
  unfold reads_before
  rw [List.range_succ, List.filter_append, List.length_append]
  by_cases h : gpio_maps n = -1 <;> simp [h]

theorem mk_gpio_read_packet_loop (pad : mk_pad) (lev : Nat → Nat)
    (hmap : valid_map pad.gpio_maps) :
    ∀ n, n ≤ 12 → ∀ (data : Nat → Nat) (hw : GpioHw),
      ∃ data1 hw1,
        (List.range n).foldlM (mk_gpio_read_packet_body pad lev) (data, hw) = some (data1, hw1) ∧
        hw1.t = hw.t + reads_before pad.gpio_maps n ∧
        ∀ k, data1 k =
          if k < n then
            (if pad.gpio_maps k = -1 then 0
             else if (lev (hw.t + reads_before pad.gpio_maps k) >>> (pad.gpio_maps k).toNat) &&& 1 = 0
               then 1 else 0)
          else data k := by
  intro n
  induction n with
  | zero =>
    intro _ data hw
    exact ⟨data, hw, rfl, by simp [reads_before], by intro k; simp⟩
  | succ n ih =>
    intro hn data hw
    obtain ⟨d1, h1, hrun, ht, hd⟩ := ih (by omega) data hw
    rw [List.range_succ, List.foldlM_append, hrun]
    by_cases hs : pad.gpio_maps n = -1
    · refine ⟨store16 d1 n 0, h1, ?_, ?_, ?_⟩
      · simp [mk_gpio_read_packet_body, hs]
      · rw [reads_before_succ]; simp [hs, ht]
      · intro k
        by_cases hk : k = n
        · subst hk; simp [store16, hs]
        · have hst : ∀ v, store16 d1 n v k = d1 k := by intro v; simp [store16, hk]
          rw [hst, hd k]
          by_cases hlt : k < n
          · rw [if_pos hlt, if_pos (show k < n + 1 by omega)]
          · rw [if_neg hlt, if_neg (show ¬ k < n + 1 by omega)]
    · have hv : valid_pin (pad.gpio_maps n) := by
        rcases hmap n (by omega) with h | h
        · exact absurd h hs
        · exact h
      refine ⟨store16 d1 n (if (lev h1.t >>> (pad.gpio_maps n).toNat) &&& 1 = 0 then 1 else 0),
        { t := h1.t + 1, trace := h1.trace ++ [PinOp.read (pad.gpio_maps n)] }, ?_, ?_, ?_⟩
      · have hv2 : 0 ≤ pad.gpio_maps n ∧ pad.gpio_maps n < 32 := hv
        simp [mk_gpio_read_packet_body, hs, GPIO_READ, hv2]
      · rw [reads_before_succ]; simp [hs, ht]; omega
      · intro k
        by_cases hk : k = n
        · subst hk
          by_cases hb : (lev h1.t >>> (pad.gpio_maps k).toNat) &&& 1 = 0
          · simp [store16, hs, ht] at hb ⊢; simp [hb]
          · simp [store16, hs, ht] at hb ⊢; simp [hb]
        · have hst : ∀ v, store16 d1 n v k = d1 k := by intro v; simp [store16, hk]
          rw [hst, hd k]
          by_cases hlt : k < n
          · rw [if_pos hlt, if_pos (show k < n + 1 by omega)]
          · rw [if_neg hlt, if_neg (show ¬ k < n + 1 by omega)]

theorem mk_gpio_read_packet_levels (pad : mk_pad) (w : Nat) (data : Nat → Nat) (hw : GpioHw)
    (hmap : valid_map pad.gpio_maps) :
    ∃ data1 hw1, mk_gpio_read_packet pad (fun _ => w) data hw = some (data1, hw1) ∧
      (∀ k, k < 12 → data1 k = if pin_pressed pad.gpio_maps w k then 1 else 0) ∧
      ∀ k, 12 ≤ k → data1 k = data k := by
  obtain ⟨d1, h1, hrun, _, hd⟩ :=
    mk_gpio_read_packet_loop pad (fun _ => w) hmap 12 (le_refl _) data hw
  refine ⟨d1, h1, hrun, ?_, ?_⟩
  · intro k hk
    rw [hd k, if_pos hk]
    by_cases hs : pad.gpio_maps k = -1
    · simp [pin_pressed, hs]
    · by_cases hb : (w >>> (pad.gpio_maps k).toNat) &&& 1 = 0
      · simp only [pin_pressed, hs, hb, if_false, if_true, ne_eq, not_false_eq_true, and_self]
      · simp only [pin_pressed, hs, hb, if_false, ne_eq, not_false_eq_true, and_false]
  · intro k hk
    rw [hd k, if_neg (by omega)]

theorem mk_input_report_eq (pad : mk_pad) (data : Nat → Nat) :
    mk_input_report pad data =
      (if lnot (data 0) - lnot (data 1) < 0 then
          [InputEvent.key pad.dev .BTN_DPAD_UP 0, InputEvent.key pad.dev .BTN_DPAD_DOWN 1]
        else if lnot (data 0) - lnot (data 1) > 0 then
          [InputEvent.key pad.dev .BTN_DPAD_UP 1, InputEvent.key pad.dev .BTN_DPAD_DOWN 0]
        else
          [InputEvent.key pad.dev .BTN_DPAD_UP 0, InputEvent.key pad.dev .BTN_DPAD_DOWN 0]) ++
      ((if lnot (data 2) - lnot (data 3) < 0 then
          [InputEvent.key pad.dev .BTN_DPAD_LEFT 0, InputEvent.key pad.dev .BTN_DPAD_RIGHT 1]
        else if lnot (data 2) - lnot (data 3) > 0 then
          [InputEvent.key pad.dev .BTN_DPAD_LEFT 1, InputEvent.key pad.dev .BTN_DPAD_RIGHT 0]
        else
          [InputEvent.key pad.dev .BTN_DPAD_LEFT 0, InputEvent.key pad.dev .BTN_DPAD_RIGHT 0]) ++
      [InputEvent.abs pad.dev .ABS_HAT0Y (lnot (data 0) - lnot (data 1)),
       InputEvent.abs pad.dev .ABS_HAT0X (lnot (data 2) - lnot (data 3)),
       InputEvent.abs pad.dev .ABS_RY (data 13),
       InputEvent.abs pad.dev .ABS_RX (data 14),
       InputEvent.abs pad.dev .ABS_Y (data 15),
       InputEvent.abs pad.dev .ABS_X (data 16),
       InputEvent.key pad.dev .BTN_START (data 4),
       InputEvent.key pad.dev .BTN_SELECT (data 5),
       InputEvent.key pad.dev .BTN_EAST (data 6),
       InputEvent.key pad.dev .BTN_SOUTH (data 7),
       InputEvent.key pad.dev .BTN_TR (data 8),
       InputEvent.key pad.dev .BTN_WEST (data 9),
       InputEvent.key pad.dev .BTN_NORTH (data 10),
       InputEvent.key pad.dev .BTN_TL (data 11),
       InputEvent.sync pad.dev]) := by
  simp [mk_input_report, mk_max_arcade_buttons, mk_arcade_gpio_btn, List.range']

theorem reportedAbs_hat0y (pad : mk_pad) (data : Nat → Nat) :
    reportedAbs .ABS_HAT0Y (mk_input_report pad data) = [lnot (data 0) - lnot (data 1)] := by
  rw [mk_input_report_eq]
  split_ifs <;> simp [reportedAbs]

theorem reportedAbs_hat0x (pad : mk_pad) (data : Nat → Nat) :
    reportedAbs .ABS_HAT0X (mk_input_report pad data) = [lnot (data 2) - lnot (data 3)] := by
  rw [mk_input_report_eq]
  split_ifs <;> simp [reportedAbs]

theorem reportedKey_button (pad : mk_pad) (data : Nat → Nat) (j : Nat) (h4 : 4 ≤ j)
    (h12 : j < 12) :
    reportedKey (mk_arcade_gpio_btn.getD (j - 4) .BTN_START) (mk_input_report pad data) =
      [(data j : Int)] := by
  rw [mk_input_report_eq]
  interval_cases j <;> split_ifs <;> simp [reportedKey, mk_arcade_gpio_btn]

theorem hat_value (a b : Nat) (p q : Prop) [Decidable p] [Decidable q]
    (ha : a = if p then 1 else 0) (hb : b = if q then 1 else 0) :
    (p ∧ ¬ q → lnot a - lnot b = -1) ∧ (¬ p ∧ q → lnot a - lnot b = 1) ∧
    (¬ p ∧ ¬ q → lnot a - lnot b = 0) ∧ (p ∧ q → lnot a - lnot b = 0) := by
  subst ha hb
  by_cases hp : p <;> by_cases hq : q <;> simp [lnot, hp, hq]

theorem scenario_pad_valid : valid_map scenario_pad.gpio_maps := by
  intro i hi
  right
  interval_cases i <;> simp [scenario_pad, ofList, valid_pin]

/-- C1. For every valid pin map and every value of the level register, after
`mk_gpio_read_packet` the value `mk_input_report` reports for `ABS_HAT0Y` is -1
when only up (slot 0) is pressed, +1 when only down (slot 1) is pressed and 0
when neither or both are; the same rule gives `ABS_HAT0X` from left (slot 2) and
right (slot 3); each button slot is reported pressed exactly when its pin is. -/
theorem C1_hat_follows_pressed_direction (pad : mk_pad) (w : Nat) (data : Nat → Nat)
    (hw : GpioHw) (hmap : valid_map pad.gpio_maps) :
    ∃ data1 hw1, mk_gpio_read_packet pad (fun _ => w) data hw = some (data1, hw1) ∧
      (pin_pressed pad.gpio_maps w 0 ∧ ¬ pin_pressed pad.gpio_maps w 1 →
        reportedAbs .ABS_HAT0Y (mk_input_report pad data1) = [-1]) ∧
      (¬ pin_pressed pad.gpio_maps w 0 ∧ pin_pressed pad.gpio_maps w 1 →
        reportedAbs .ABS_HAT0Y (mk_input_report pad data1) = [1]) ∧
      (¬ pin_pressed pad.gpio_maps w 0 ∧ ¬ pin_pressed pad.gpio_maps w 1 →
        reportedAbs .ABS_HAT0Y (mk_input_report pad data1) = [0]) ∧
      (pin_pressed pad.gpio_maps w 0 ∧ pin_pressed pad.gpio_maps w 1 →
        reportedAbs .ABS_HAT0Y (mk_input_report pad data1) = [0]) ∧
      (pin_pressed pad.gpio_maps w 2 ∧ ¬ pin_pressed pad.gpio_maps w 3 →
        reportedAbs .ABS_HAT0X (mk_input_report pad data1) = [-1]) ∧
      (¬ pin_pressed pad.gpio_maps w 2 ∧ pin_pressed pad.gpio_maps w 3 →
        reportedAbs .ABS_HAT0X (mk_input_report pad data1) = [1]) ∧
      (¬ pin_pressed pad.gpio_maps w 2 ∧ ¬ pin_pressed pad.gpio_maps w 3 →
        reportedAbs .ABS_HAT0X (mk_input_report pad data1) = [0]) ∧
      (pin_pressed pad.gpio_maps w 2 ∧ pin_pressed pad.gpio_maps w 3 →
        reportedAbs .ABS_HAT0X (mk_input_report pad data1) = [0]) ∧
      ∀ j, 4 ≤ j → j < 12 →
        reportedKey (mk_arcade_gpio_btn.getD (j - 4) .BTN_START) (mk_input_report pad data1) =
          [if pin_pressed pad.gpio_maps w j then 1 else 0] := by
  obtain ⟨d1, h1, hrun, hd, _⟩ := mk_gpio_read_packet_levels pad w data hw hmap
  have hy := hat_value (d1 0) (d1 1) _ _ (hd 0 (by omega)) (hd 1 (by omega))
  have hx := hat_value (d1 2) (d1 3) _ _ (hd 2 (by omega)) (hd 3 (by omega))
  refine ⟨d1, h1, hrun, ?_, ?_, ?_, ?_, ?_, ?_, ?_, ?_, ?_⟩
  · intro h; rw [reportedAbs_hat0y, hy.1 h]
  · intro h; rw [reportedAbs_hat0y, hy.2.1 h]
  · intro h; rw [reportedAbs_hat0y, hy.2.2.1 h]
  · intro h; rw [reportedAbs_hat0y, hy.2.2.2 h]
  · intro h; rw [reportedAbs_hat0x, hx.1 h]
  · intro h; rw [reportedAbs_hat0x, hx.2.1 h]
  · intro h; rw [reportedAbs_hat0x, hx.2.2.1 h]
  · intro h; rw [reportedAbs_hat0x, hx.2.2.2 h]
  · intro j h4 h12
    rw [reportedKey_button pad d1 j h4 h12, hd j h12]
    by_cases hp : pin_pressed pad.gpio_maps w j <;> simp [hp]

/-- C1, the scenario: custom map `[4,17,27,22,10,9,25,24,23,18,15,14]`, pin 4 low
and every other mapped pin high: vertical -1, horizontal 0, the 8 buttons
reported not pressed. -/
theorem C1_scenario :
    valid_map scenario_pad.gpio_maps ∧
    ∃ data1 hw1,
      mk_gpio_read_packet scenario_pad (fun _ => scenario_levels) (fun _ => 0) hw_init =
        some (data1, hw1) ∧
      reportedAbs .ABS_HAT0Y (mk_input_report scenario_pad data1) = [-1] ∧
      reportedAbs .ABS_HAT0X (mk_input_report scenario_pad data1) = [0] ∧
      ∀ j, 4 ≤ j → j < 12 →
        reportedKey (mk_arcade_gpio_btn.getD (j - 4) .BTN_START)
          (mk_input_report scenario_pad data1) = [0] := by
  refine ⟨scenario_pad_valid, ?_⟩
  obtain ⟨d1, h1, hrun, hy, _, _, _, _, _, hx, _, hb⟩ :=
    C1_hat_follows_pressed_direction scenario_pad scenario_levels (fun _ => 0) hw_init
      scenario_pad_valid
  refine ⟨d1, h1, hrun, hy (by decide), hx (by decide), ?_⟩
  intro j h4 h12
  rw [hb j h4 h12]
  interval_cases j <;> decide

/-- C2. With only up pressed (`data[0] = 1`, `data[1] = 0`) `mk_input_report`
reports `BTN_DPAD_UP` released and `BTN_DPAD_DOWN` pressed, while `ABS_HAT0Y` is
-1 (up); with only down pressed it reports `BTN_DPAD_UP` pressed and
`BTN_DPAD_DOWN` released; likewise left-only presses `BTN_DPAD_RIGHT` and
right-only presses `BTN_DPAD_LEFT`. -/
theorem C2_dpad_keys_are_swapped :
    reportedKey .BTN_DPAD_UP (mk_input_report scenario_pad (ofList [1, 0, 0, 0] 0)) = [0] ∧
    reportedKey .BTN_DPAD_DOWN (mk_input_report scenario_pad (ofList [1, 0, 0, 0] 0)) = [1] ∧
    reportedAbs .ABS_HAT0Y (mk_input_report scenario_pad (ofList [1, 0, 0, 0] 0)) = [-1] ∧
    reportedKey .BTN_DPAD_UP (mk_input_report scenario_pad (ofList [0, 1, 0, 0] 0)) = [1] ∧
    reportedKey .BTN_DPAD_DOWN (mk_input_report scenario_pad (ofList [0, 1, 0, 0] 0)) = [0] ∧
    reportedAbs .ABS_HAT0Y (mk_input_report scenario_pad (ofList [0, 1, 0, 0] 0)) = [1] ∧
    reportedKey .BTN_DPAD_LEFT (mk_input_report scenario_pad (ofList [0, 0, 1, 0] 0)) = [0] ∧
    reportedKey .BTN_DPAD_RIGHT (mk_input_report scenario_pad (ofList [0, 0, 1, 0] 0)) = [1] ∧
    reportedKey .BTN_DPAD_LEFT (mk_input_report scenario_pad (ofList [0, 0, 0, 1] 0)) = [1] ∧
    reportedKey .BTN_DPAD_RIGHT (mk_input_report scenario_pad (ofList [0, 0, 0, 1] 0)) = [0] := by
  decide

theorem or_of_pins_succ (gpioMap : Nat → Int) (n mask : Nat) :
    or_of_pins gpioMap (n + 1) mask =
      if gpioMap n ≠ -1 then or_of_pins gpioMap n mask ||| (1 <<< (gpioMap n).toNat)
      else or_of_pins gpioMap n mask := by
  unfold or_of_pins
  rw [List.range_succ, List.filter_append, List.foldl_append]
  by_cases h : gpioMap n = -1 <;> simp [h]

theorem testBit_one_shiftLeft (g b : Nat) : (1 <<< g).testBit b = decide (g = b) := by
  rw [Nat.one_shiftLeft, Nat.testBit_two_pow]

theorem getPullUpMask_loop (gpioMap : Nat → Int) (hmap : valid_map gpioMap) :
    ∀ n, n ≤ 12 → ∀ mask : Nat,
      (List.range n).foldlM (getPullUpMask_body gpioMap) mask =
        some (or_of_pins gpioMap n mask) ∧
      ∀ b : Nat, (or_of_pins gpioMap n mask).testBit b = true ↔
        (mask.testBit b = true ∨ ∃ i, i < n ∧ gpioMap i = (b : Int)) := by
  intro n
  induction n with
  | zero =>
    intro _ mask
    exact ⟨rfl, by intro b; simp [or_of_pins]⟩
  | succ n ih =>
    intro hn mask
    obtain ⟨hrun, hbits⟩ := ih (by omega) mask
    rw [List.range_succ, List.foldlM_append, hrun, or_of_pins_succ]
    by_cases hs : gpioMap n = -1
    · refine ⟨by simp [getPullUpMask_body, hs], ?_⟩
      intro b
      rw [if_neg (by simpa using hs), hbits b]
      constructor
      · rintro (h | ⟨i, hi, he⟩)
        · exact Or.inl h
        · exact Or.inr ⟨i, by omega, he⟩
      · rintro (h | ⟨i, hi, he⟩)
        · exact Or.inl h
        · by_cases hin : i = n
          · subst hin; rw [hs] at he; omega
          · exact Or.inr ⟨i, by omega, he⟩
    · have hv : 0 ≤ gpioMap n ∧ gpioMap n < 32 := by
        rcases hmap n (by omega) with h | h
        · exact absurd h hs
        · exact h
      refine ⟨by simp [getPullUpMask_body, hs, shl_one, hv], ?_⟩
      intro b
      rw [if_pos hs, Nat.testBit_or, Bool.or_eq_true, hbits b, testBit_one_shiftLeft]
      have hto : ((gpioMap n).toNat = b) ↔ gpioMap n = (b : Int) := by omega
      constructor
      · rintro ((h | ⟨i, hi, he⟩) | h)
        · exact Or.inl h
        · exact Or.inr ⟨i, by omega, he⟩
        · exact Or.inr ⟨n, by omega, hto.1 (by simpa using h)⟩
      · rintro (h | ⟨i, hi, he⟩)
        · exact Or.inl (Or.inl h)
        · by_cases hin : i = n
          · subst hin; exact Or.inr (by simpa using hto.2 he)
          · exact Or.inl (Or.inr ⟨i, by omega, he⟩)

theorem unused_slots_sampled_zero_and_mask (pad : mk_pad) (lev : Nat → Nat)
    (data : Nat → Nat) (hw : GpioHw) (hmap : valid_map pad.gpio_maps) :
    (∃ data1 hw1, mk_gpio_read_packet pad lev data hw = some (data1, hw1) ∧
      ∀ i, i < 12 → pad.gpio_maps i = -1 →
        data1 i = 0 ∧
        (4 ≤ i → reportedKey (mk_arcade_gpio_btn.getD (i - 4) .BTN_START)
          (mk_input_report pad data1) = [0])) ∧
    (∃ mask, getPullUpMask pad.gpio_maps = some mask ∧
      mask = or_of_pins pad.gpio_maps 12 0 ∧
      (∀ b : Nat, mask.testBit b = true ↔ ∃ i, i < 12 ∧ pad.gpio_maps i = (b : Int)) ∧
      ((∀ i, i < 12 → pad.gpio_maps i = -1) → mask = 0)) := by
  constructor
  · obtain ⟨d1, h1, hrun, _, hd⟩ := mk_gpio_read_packet_loop pad lev hmap 12 (le_refl _) data hw
    refine ⟨d1, h1, hrun, ?_⟩
    intro i hi hs
    have h0 : d1 i = 0 := by rw [hd i, if_pos hi, if_pos hs]
    refine ⟨h0, ?_⟩
    intro h4
    rw [reportedKey_button pad d1 i h4 hi, h0]
    rfl
  · obtain ⟨hrun, hbits⟩ := getPullUpMask_loop pad.gpio_maps hmap 12 (le_refl _) 0
    refine ⟨or_of_pins pad.gpio_maps 12 0, hrun, rfl, ?_, ?_⟩
    · intro b
      rw [hbits b]
      simp
    · intro hall
      apply Nat.eq_of_testBit_eq
      intro b
      rw [Nat.zero_testBit]
      cases hb : (or_of_pins pad.gpio_maps 12 0).testBit b with
      | false => rfl
      | true =>
        obtain h | ⟨i, hi, he⟩ := (hbits b).1 hb
        · simp at h
        · have := hall i hi
          omega

theorem unused_up_pad_valid : valid_map unused_up_pad.gpio_maps := by
  intro i hi
  interval_cases i <;> simp [unused_up_pad, ofList, valid_pin]

/-- C7. With the up slot (slot 0) unused (pin -1) and every pin low,
`mk_gpio_read_packet` samples slot 0 as 0 (not pressed) and slot 1 (down) as 1,
and `getPullUpMask` leaves pin 4 out of the mask, but `mk_input_report` reports
`BTN_DPAD_UP`, the key of the unused slot, pressed (and `BTN_DPAD_DOWN`
released), while `ABS_HAT0Y` is +1 (down). -/
theorem C7_unused_up_slot_reports_dpad_up_pressed :
    valid_map unused_up_pad.gpio_maps ∧
    unused_up_pad.gpio_maps 0 = -1 ∧
    (mk_gpio_read_packet unused_up_pad (fun _ => 0) (fun _ => 7) hw_init).map
      (fun r => [r.1 0, r.1 1]) = some [0, 1] ∧
    (mk_gpio_read_packet unused_up_pad (fun _ => 0) (fun _ => 7) hw_init).map
      (fun r => reportedKey .BTN_DPAD_UP (mk_input_report unused_up_pad r.1)) = some [1] ∧
    (mk_gpio_read_packet unused_up_pad (fun _ => 0) (fun _ => 7) hw_init).map
      (fun r => reportedKey .BTN_DPAD_DOWN (mk_input_report unused_up_pad r.1)) = some [0] ∧
    (mk_gpio_read_packet unused_up_pad (fun _ => 0) (fun _ => 7) hw_init).map
      (fun r => reportedAbs .ABS_HAT0Y (mk_input_report unused_up_pad r.1)) = some [1] ∧
    getPullUpMask unused_up_pad.gpio_maps = some 197576192 ∧
    Nat.testBit 197576192 4 = false := by
  refine ⟨unused_up_pad_valid, by decide, by decide, by decide, by decide, by decide,
    by decide, by decide⟩

theorem life_step_invariant (m : mk) (op : LifeOp)
    (h : m.timer_pending = true ↔ 0 < m.used) :
    (life_step m op).timer_pending = true ↔ 0 < (life_step m op).used := by
  cases op with
  | mk_open err =>
    by_cases he : err = 0
    · by_cases hu : m.used = 0
      · simp [life_step, mk_open, he, hu]
      · simp only [life_step, mk_open, he, hu, ne_eq, not_true_eq_false, if_false]
        rw [h]; omega
    · simpa [life_step, mk_open, he] using h
  | mk_close =>
    by_cases hu : m.used - 1 = 0
    · simp [life_step, mk_close, hu]
    · simp only [life_step, mk_close, hu, if_false]
      rw [h]; omega
  | mk_timer =>
    by_cases hp : m.timer_pending = true
    · simp only [life_step, hp, if_true, mk_timer, true_iff]
      exact h.1 hp
    · simpa [life_step, hp] using h

theorem life_run_invariant (ops : List LifeOp) :
    ∀ m : mk, (m.timer_pending = true ↔ 0 < m.used) →
      ((life_run m ops).timer_pending = true ↔ 0 < (life_run m ops).used) := by
  induction ops with
  | nil => intro m h; exact h
  | cons op ops ih =>
    intro m h
    exact ih (life_step m op) (life_step_invariant m op h)

theorem life_run_append (m : mk) (a b : List LifeOp) :
    life_run m (a ++ b) = life_run (life_run m a) b := by
  simp [life_run, List.foldl_append]

theorem life_run_opens (N : Nat) :
    ∀ m : mk, (life_run m (List.replicate N (LifeOp.mk_open 0))).used = m.used + N := by
  induction N with
  | zero => intro m; simp [life_run]
  | succ N ih =>
    intro m
    rw [List.replicate_succ]
    show (life_run (life_step m (LifeOp.mk_open 0)) _).used = _
    rw [ih]
    simp [life_step, mk_open]
    omega

theorem life_run_closes (N : Nat) :
    ∀ m : mk, (life_run m (List.replicate N LifeOp.mk_close)).used = m.used - N := by
  induction N with
  | zero => intro m; simp [life_run]
  | succ N ih =>
    intro m
    rw [List.replicate_succ]
    show (life_run (life_step m LifeOp.mk_close) _).used = _
    rw [ih]
    simp [life_step, mk_close]
    omega

theorem life_run_used_nonneg (ops : List LifeOp) :
    ∀ (d : Nat) (m : mk), m.used = (d : Int) → well_nested d ops = true →
      0 ≤ (life_run m ops).used := by
  induction ops with
  | nil => intro d m hm _; simp [life_run, hm]
  | cons op ops ih =>
    intro d m hm hw
    cases op with
    | mk_open err =>
      by_cases he : err = 0
      · have hw2 : well_nested (d + 1) ops = true := by simpa [well_nested, he] using hw
        exact ih (d + 1) (life_step m (LifeOp.mk_open err))
          (by simp [life_step, mk_open, he, hm]) hw2
      · have hw2 : well_nested d ops = true := by simpa [well_nested, he] using hw
        exact ih d (life_step m (LifeOp.mk_open err)) (by simp [life_step, mk_open, he, hm]) hw2
    | mk_close =>
      cases d with
      | zero => simp [well_nested] at hw
      | succ d =>
        have hw2 : well_nested d ops = true := by simpa [well_nested] using hw
        exact ih d (life_step m LifeOp.mk_close) (by simp [life_step, mk_close, hm]) hw2
    | mk_timer =>
      have hw2 : well_nested d ops = true := by simpa [well_nested] using hw
      refine ih d (life_step m LifeOp.mk_timer) ?_ hw2
      by_cases hp : m.timer_pending = true <;> simp [life_step, mk_timer, hp, hm]

/-- C6. From the state `(used, timer) = (0, not pending)`, after every sequence of
`mk_open`, `mk_close` and timer expiries (an expiry takes the timer off the
pending list and `mk_timer` puts it back) in which no close precedes its matching
open, the timer is pending if and only if `used > 0` (and `used` is not negative);
and for every `N ≥ 1`, `N` opens followed by `N` closes leave `used = 0` and the
timer not pending. -/
theorem C6_timer_pending_iff_used :
    (∀ ops : List LifeOp, well_nested 0 ops = true →
      ((life_run mk_zero ops).timer_pending = true ↔ 0 < (life_run mk_zero ops).used) ∧
      0 ≤ (life_run mk_zero ops).used) ∧
    (∀ N : Nat, 1 ≤ N →
      (life_run mk_zero
        (List.replicate N (LifeOp.mk_open 0) ++ List.replicate N LifeOp.mk_close)).used = 0 ∧
      (life_run mk_zero
        (List.replicate N (LifeOp.mk_open 0) ++ List.replicate N LifeOp.mk_close)).timer_pending
          = false) := by
  have hinit : mk_zero.timer_pending = true ↔ 0 < mk_zero.used := by simp [mk_zero]
  constructor
  · intro ops hn
    exact ⟨life_run_invariant ops mk_zero hinit, life_run_used_nonneg ops 0 mk_zero rfl hn⟩
  · intro N _
    have hused : (life_run mk_zero
        (List.replicate N (LifeOp.mk_open 0) ++ List.replicate N LifeOp.mk_close)).used = 0 := by
      rw [life_run_append, life_run_closes, life_run_opens]
      simp [mk_zero]
    refine ⟨hused, ?_⟩
    have hinv := life_run_invariant
      (List.replicate N (LifeOp.mk_open 0) ++ List.replicate N LifeOp.mk_close) mk_zero hinit
    rw [hused] at hinv
    cases hp : (life_run mk_zero
        (List.replicate N (LifeOp.mk_open 0) ++ List.replicate N LifeOp.mk_close)).timer_pending with
    | false => rfl
    | true => exact absurd (hinv.1 hp) (by omega)

/-- C6, an instance: two opens, a timer expiry, a close: the timer is pending
again after the expiry and one device is open; and two opens followed by two
closes. -/
theorem C6_instance :
    well_nested 0 [LifeOp.mk_open 0, LifeOp.mk_open 0, LifeOp.mk_timer, LifeOp.mk_close] = true ∧
    ((life_run mk_zero
        [LifeOp.mk_open 0, LifeOp.mk_open 0, LifeOp.mk_timer, LifeOp.mk_close]).timer_pending = true ↔
      0 < (life_run mk_zero
        [LifeOp.mk_open 0, LifeOp.mk_open 0, LifeOp.mk_timer, LifeOp.mk_close]).used) ∧
    (life_run mk_zero
        [LifeOp.mk_open 0, LifeOp.mk_open 0, LifeOp.mk_timer, LifeOp.mk_close]).used = 1 ∧
    (life_run mk_zero
        [LifeOp.mk_open 0, LifeOp.mk_open 0, LifeOp.mk_timer, LifeOp.mk_close]).timer_pending
          = true ∧
    (life_run mk_zero
      (List.replicate 2 (LifeOp.mk_open 0) ++ List.replicate 2 LifeOp.mk_close)).used = 0 ∧
    (life_run mk_zero
      (List.replicate 2 (LifeOp.mk_open 0) ++ List.replicate 2 LifeOp.mk_close)).timer_pending
        = false :=
  ⟨by decide,
   (C6_timer_pending_iff_used.1
     [LifeOp.mk_open 0, LifeOp.mk_open 0, LifeOp.mk_timer, LifeOp.mk_close] (by decide)).1,
   by decide,
   by decide,
   (C6_timer_pending_iff_used.2 2 (by decide)).1,
   (C6_timer_pending_iff_used.2 2 (by decide)).2⟩

theorem put_bit_testBit (x j b : Nat) (s : Bool) (hj : j < 8) (hb : b < 8) :
    (put_bit x j s).testBit b = if b = j then s else x.testBit b := by
  unfold put_bit
  have h256 : (256 : Nat) = 2 ^ 8 := by norm_num
  rw [h256, Nat.testBit_mod_two_pow]
  cases s with
  | true =>
    simp only [if_true, Nat.testBit_or, testBit_one_shiftLeft]
    by_cases hbj : b = j
    · subst hbj; simp [hb]
    · have : ¬ j = b := fun h => hbj h.symm
      simp [hb, hbj, this]
  | false =>
    simp only [Bool.false_eq_true, if_false, Nat.testBit_and]
    have hc : (0xFFFFFFFF - (1 <<< j)).testBit b = decide (b ≠ j) := by
      interval_cases j <;> interval_cases b <;> decide
    rw [hc]
    by_cases hbj : b = j
    · subst hbj; simp
    · simp [hb, hbj]

theorem put_bit_lt (x j : Nat) (s : Bool) : put_bit x j s < 256 := by
  unfold put_bit
  exact Nat.mod_lt _ (by norm_num)

theorem store8_eq_update (rb : Nat → Nat) (i v : Nat) :
    store8 rb i v = Function.update rb i (v % 256) := by
  funext k
  by_cases hk : k = i
  · subst hk; simp [store8]
  · simp [store8, hk, Function.update]

theorem spi_transfer_bit_eq (L : spi_pins) (lev : Nat → Nat) (tbuf : Nat → Nat) (i : Nat)
    (hL : valid_lines L) (st : (Nat → Nat) × GpioHw) (j : Nat) :
    spi_transfer_bit L lev tbuf i st j = some (bit_next L lev tbuf i st j) := by
  obtain ⟨hmiso, hmosi, hclk, _⟩ := hL
  obtain ⟨rb, hw⟩ := st
  have ht : (lev hw.t).testBit L.SPI_MISO_LINE.toNat =
      decide (lev hw.t >>> L.SPI_MISO_LINE.toNat % 2 = 1) := by
    rw [← Nat.testBit_zero, Nat.testBit_shiftRight]; simp
  by_cases hbit : (tbuf i >>> j) &&& 1 = 0 <;>
  by_cases hs : (lev hw.t >>> L.SPI_MISO_LINE.toNat) &&& 1 = 0 <;>
  simp [spi_transfer_bit, bit_next, gpio_set, gpio_clr, GPIO_READ, shl_one, hmiso, hmosi, hclk,
    GpioHw.log, pulse_trace, sampled_bit, put_bit, store8_eq_update] at hbit hs ⊢ <;>
  simp [hbit, hs, ht]

theorem foldlM_eq_some_foldl {σ α : Type} (f : σ → α → Option σ) (g : σ → α → σ)
    (h : ∀ s a, f s a = some (g s a)) (l : List α) :
    ∀ s : σ, l.foldlM f s = some (l.foldl g s) := by
  induction l with
  | nil => intro s; rfl
  | cons a l ih =>
    intro s
    rw [List.foldlM_cons, h s a]
    exact ih (g s a)

theorem sampled_bit_lt (L : spi_pins) (lev : Nat → Nat) (t : Nat) : sampled_bit L lev t < 2 := by
  unfold sampled_bit
  rw [Nat.and_one_is_mod]
  exact Nat.mod_lt _ (by norm_num)

theorem testBit_bit_shiftLeft (s j b : Nat) (hs : s < 2) :
    (s <<< j).testBit b = (decide (j = b) && decide (s ≠ 0)) := by
  interval_cases s
  · simp
  · rw [testBit_one_shiftLeft]; simp

theorem sampled_byte_testBit (L : spi_pins) (lev : Nat → Nat) (t b : Nat) :
    (sampled_byte L lev t).testBit b =
      (decide (b < 8) && decide (sampled_bit L lev (t + (7 - b)) ≠ 0)) := by
  have hr : List.range 8 = [0, 1, 2, 3, 4, 5, 6, 7] := by decide
  unfold sampled_byte
  rw [hr]
  simp only [List.foldl, Nat.testBit_or, Nat.zero_testBit,
    testBit_bit_shiftLeft _ _ _ (sampled_bit_lt L lev _)]
  by_cases hb : b < 8
  · interval_cases b <;> simp
  · have h0 : ¬ 0 = b := by omega
    have h1 : ¬ 1 = b := by omega
    have h2 : ¬ 2 = b := by omega
    have h3 : ¬ 3 = b := by omega
    have h4 : ¬ 4 = b := by omega
    have h5 : ¬ 5 = b := by omega
    have h6 : ¬ 6 = b := by omega
    have h7 : ¬ 7 = b := by omega
    simp [hb, h0, h1, h2, h3, h4, h5, h6, h7]

theorem sampled_byte_lt (L : spi_pins) (lev : Nat → Nat) (t : Nat) :
    sampled_byte L lev t < 256 := by
  have h256 : (256 : Nat) = 2 ^ 8 := by norm_num
  rw [h256]
  apply Nat.lt_pow_two_of_testBit
  intro i hi
  rw [sampled_byte_testBit]
  have : ¬ i < 8 := by omega
  simp [this]

theorem sampled_byte_bit (L : spi_pins) (lev : Nat → Nat) (t j : Nat) (hj : j < 8) :
    (sampled_byte L lev t >>> j) &&& 1 = sampled_bit L lev (t + (7 - j)) := by
  have h := sampled_byte_testBit L lev t j
  have hlt := sampled_bit_lt L lev (t + (7 - j))
  have hsh : (sampled_byte L lev t).testBit j = decide (sampled_byte L lev t >>> j % 2 = 1) := by
    rw [← Nat.testBit_zero, Nat.testBit_shiftRight]; simp
  rw [hsh] at h
  simp only [hj, decide_True, Bool.true_and] at h
  rw [Nat.and_one_is_mod]
  have h2 : sampled_byte L lev t >>> j % 2 < 2 := Nat.mod_lt _ (by norm_num)
  by_cases hz : sampled_bit L lev (t + (7 - j)) = 0
  · rw [hz] at h ⊢
    simp only [ne_eq, not_true_eq_false, decide_False, decide_eq_false_iff_not] at h
    omega
  · have h1 : sampled_byte L lev t >>> j % 2 = 1 := by
      apply of_decide_eq_true
      rw [h]
      exact decide_eq_true hz
    omega

theorem bit_next_fold (L : spi_pins) (lev : Nat → Nat) (tbuf : Nat → Nat) (i : Nat) :
    ∀ (js : List Nat) (st : (Nat → Nat) × GpioHw),
      (js.foldl (bit_next L lev tbuf i) st).2.t = st.2.t + js.length ∧
      (js.foldl (bit_next L lev tbuf i) st).2.trace =
        st.2.trace ++ js.flatMap (pulse_trace L (tbuf i)) ∧
      ∀ k, k ≠ i → (js.foldl (bit_next L lev tbuf i) st).1 k = st.1 k := by
  intro js
  induction js with
  | nil => intro st; simp
  | cons j js ih =>
    intro st
    obtain ⟨h1, h2, h3⟩ := ih (bit_next L lev tbuf i st j)
    refine ⟨?_, ?_, ?_⟩
    · rw [List.foldl_cons, h1]; simp [bit_next]; omega
    · rw [List.foldl_cons, h2]; simp [bit_next]
    · intro k hk
      rw [List.foldl_cons, h3 k hk]
      simp [bit_next, Function.update, hk]

theorem bit_next_fst_self (L : spi_pins) (lev : Nat → Nat) (tbuf : Nat → Nat) (i : Nat)
    (st : (Nat → Nat) × GpioHw) (j : Nat) :
    (bit_next L lev tbuf i st j).1 i =
      put_bit (st.1 i) j (decide (sampled_bit L lev st.2.t ≠ 0)) := by
  simp [bit_next]

theorem bit_next_t (L : spi_pins) (lev : Nat → Nat) (tbuf : Nat → Nat) (i : Nat)
    (st : (Nat → Nat) × GpioHw) (j : Nat) :
    (bit_next L lev tbuf i st j).2.t = st.2.t + 1 := rfl

theorem bit_next_byte_value (L : spi_pins) (lev : Nat → Nat) (tbuf : Nat → Nat) (i : Nat)
    (st : (Nat → Nat) × GpioHw) :
    ([7, 6, 5, 4, 3, 2, 1, 0].foldl (bit_next L lev tbuf i) st).1 i =
      sampled_byte L lev st.2.t := by
  apply Nat.eq_of_testBit_eq
  intro b
  rw [sampled_byte_testBit]
  simp only [List.foldl, bit_next_fst_self, bit_next_t]
  by_cases hb : b < 8
  · simp only [put_bit_testBit _ _ _ _ (show 7 < 8 by norm_num) hb,
      put_bit_testBit _ _ _ _ (show 6 < 8 by norm_num) hb,
      put_bit_testBit _ _ _ _ (show 5 < 8 by norm_num) hb,
      put_bit_testBit _ _ _ _ (show 4 < 8 by norm_num) hb,
      put_bit_testBit _ _ _ _ (show 3 < 8 by norm_num) hb,
      put_bit_testBit _ _ _ _ (show 2 < 8 by norm_num) hb,
      put_bit_testBit _ _ _ _ (show 1 < 8 by norm_num) hb,
      put_bit_testBit _ _ _ _ (show 0 < 8 by norm_num) hb]
    interval_cases b <;> simp [Nat.add_assoc]
  · have hlt : put_bit
        (put_bit (put_bit (put_bit (put_bit (put_bit (put_bit (put_bit (st.1 i) 7
          (decide (sampled_bit L lev st.2.t ≠ 0))) 6
          (decide (sampled_bit L lev (st.2.t + 1) ≠ 0))) 5
          (decide (sampled_bit L lev (st.2.t + 1 + 1) ≠ 0))) 4
          (decide (sampled_bit L lev (st.2.t + 1 + 1 + 1) ≠ 0))) 3
          (decide (sampled_bit L lev (st.2.t + 1 + 1 + 1 + 1) ≠ 0))) 2
          (decide (sampled_bit L lev (st.2.t + 1 + 1 + 1 + 1 + 1) ≠ 0))) 1
          (decide (sampled_bit L lev (st.2.t + 1 + 1 + 1 + 1 + 1 + 1) ≠ 0))) 0
          (decide (sampled_bit L lev (st.2.t + 1 + 1 + 1 + 1 + 1 + 1 + 1) ≠ 0)) < 2 ^ b :=
      lt_of_lt_of_le (put_bit_lt _ _ _)
        (by
          have h256 : (256 : Nat) = 2 ^ 8 := by norm_num
          rw [h256]
          exact Nat.pow_le_pow_right (by norm_num) (by omega))
    rw [Nat.testBit_lt_two_pow hlt]
    simp [hb]

theorem spi_transfer_byte_spec (L : spi_pins) (lev : Nat → Nat) (tbuf : Nat → Nat)
    (hL : valid_lines L) (rb : Nat → Nat) (hw : GpioHw) (i : Nat) :
    ∃ rb1 hw1, spi_transfer_byte L lev tbuf (rb, hw) i = some (rb1, hw1) ∧
      hw1.t = hw.t + 8 ∧
      hw1.trace = hw.trace ++ byte_trace L (tbuf i) ∧
      rb1 i = sampled_byte L lev hw.t ∧
      ∀ k, k ≠ i → rb1 k = rb k := by
  have hr : (List.range 8).reverse = [7, 6, 5, 4, 3, 2, 1, 0] := by decide
  have hrun : spi_transfer_byte L lev tbuf (rb, hw) i =
      some ([7, 6, 5, 4, 3, 2, 1, 0].foldl (bit_next L lev tbuf i)
        (rb, hw.log (PinOp.udelay 100))) := by
    unfold spi_transfer_byte
    rw [hr]
    exact foldlM_eq_some_foldl _ _ (spi_transfer_bit_eq L lev tbuf i hL) _ _
  obtain ⟨h1, h2, h3⟩ := bit_next_fold L lev tbuf i [7, 6, 5, 4, 3, 2, 1, 0]
    (rb, hw.log (PinOp.udelay 100))
  have h4 := bit_next_byte_value L lev tbuf i (rb, hw.log (PinOp.udelay 100))
  generalize [7, 6, 5, 4, 3, 2, 1, 0].foldl (bit_next L lev tbuf i)
    (rb, hw.log (PinOp.udelay 100)) = R at hrun h1 h2 h3 h4
  obtain ⟨rb1, hw1⟩ := R
  refine ⟨rb1, hw1, hrun, ?_, ?_, ?_, ?_⟩
  · simpa [GpioHw.log] using h1
  · rw [byte_trace, hr]; simpa [GpioHw.log] using h2
  · simpa [GpioHw.log] using h4
  · intro k hk; exact h3 k hk

theorem spi_transfer_loop (L : spi_pins) (lev : Nat → Nat) (tbuf : Nat → Nat)
    (hL : valid_lines L) :
    ∀ (n : Nat) (rb : Nat → Nat) (hw : GpioHw),
      ∃ rb1 hw1,
        (List.range n).foldlM (spi_transfer_byte L lev tbuf) (rb, hw) = some (rb1, hw1) ∧
        hw1.t = hw.t + 8 * n ∧
        hw1.trace = hw.trace ++ (List.range n).flatMap (fun i => byte_trace L (tbuf i)) ∧
        ∀ k, rb1 k = if k < n then sampled_byte L lev (hw.t + 8 * k) else rb k := by
  intro n
  induction n with
  | zero => intro rb hw; exact ⟨rb, hw, rfl, by simp, by simp, by intro k; simp⟩
  | succ n ih =>
    intro rb hw
    obtain ⟨rb1, hw1, hrun, ht, htr, hrb⟩ := ih rb hw
    obtain ⟨rb2, hw2, hrun2, ht2, htr2, hself, hother⟩ :=
      spi_transfer_byte_spec L lev tbuf hL rb1 hw1 n
    refine ⟨rb2, hw2, ?_, ?_, ?_, ?_⟩
    · rw [List.range_succ, List.foldlM_append, hrun]
      simpa using hrun2
    · rw [ht2, ht]; omega
    · rw [htr2, htr, List.range_succ, List.flatMap_append]
      simp
    · intro k
      by_cases hk : k = n
      · subst hk
        rw [hself, ht, if_pos (by omega)]
      · rw [hother k hk, hrb k]
        by_cases hlt : k < n
        · rw [if_pos hlt, if_pos (show k < n + 1 by omega)]
        · rw [if_neg hlt, if_neg (show ¬ k < n + 1 by omega)]

theorem spi_transfer_spec (L : spi_pins) (lev : Nat → Nat) (tbuf rbuf : Nat → Nat) (len : Nat)
    (hw : GpioHw) (hL : valid_lines L) :
    ∃ rbuf1 hw1, spi_transfer L lev tbuf rbuf len hw = some (rbuf1, hw1) ∧
      hw1.t = hw.t + 8 * len ∧
      hw1.trace = hw.trace ++ spi_trace L tbuf len ∧
      ∀ k, rbuf1 k = if k < len then sampled_byte L lev (hw.t + 8 * k) else rbuf k := by
  obtain ⟨rb1, hw1, hrun, ht, htr, hrb⟩ :=
    spi_transfer_loop L lev tbuf hL len rbuf (hw.log (PinOp.clr (1 <<< L.SPI_CS_LINE.toNat)))
  have hcs := hL.2.2.2
  refine ⟨rb1, hw1.log (PinOp.set (1 <<< L.SPI_CS_LINE.toNat)), ?_, ?_, ?_, ?_⟩
  · simp [spi_transfer, gpio_clr, gpio_set, shl_one, hcs, hrun]
  · simpa [GpioHw.log] using ht
  · simp [GpioHw.log, spi_trace, htr]
  · intro k
    simpa [GpioHw.log] using hrb k

theorem filter_flatMap {α β : Type} (p : β → Bool) (f : α → List β) (l : List α) :
    (l.flatMap f).filter p = l.flatMap (fun x => (f x).filter p) := by
  induction l with
  | nil => rfl
  | cons a l ih => simp [List.flatMap_cons, List.filter_append, ih]

theorem pulse_trace_pins (L : spi_pins) (b j : Nat) :
    (pulse_trace L b j).filter (fun op => !op.is_delay) = pin_pulse L b j := by
  unfold pulse_trace pin_pulse
  split_ifs <;> rfl

theorem byte_trace_pins (L : spi_pins) (b : Nat) :
    (byte_trace L b).filter (fun op => !op.is_delay) =
      (List.range 8).reverse.flatMap (pin_pulse L b) := by
  have hd : (!(PinOp.udelay 100).is_delay) = false := rfl
  rw [byte_trace, List.filter_cons, hd, filter_flatMap]
  simp only [pulse_trace_pins]
  rfl

theorem spi_trace_pins (L : spi_pins) (tbuf : Nat → Nat) (len : Nat) :
    (spi_trace L tbuf len).filter (fun op => !op.is_delay) =
      [PinOp.clr (1 <<< L.SPI_CS_LINE.toNat)] ++
      (spi_pulses len).flatMap (fun p => pin_pulse L (tbuf p.1) p.2) ++
      [PinOp.set (1 <<< L.SPI_CS_LINE.toNat)] := by
  have h1 : [PinOp.clr (1 <<< L.SPI_CS_LINE.toNat)].filter (fun op => !op.is_delay) =
      [PinOp.clr (1 <<< L.SPI_CS_LINE.toNat)] := rfl
  have h2 : [PinOp.set (1 <<< L.SPI_CS_LINE.toNat)].filter (fun op => !op.is_delay) =
      [PinOp.set (1 <<< L.SPI_CS_LINE.toNat)] := rfl
  have h3 : (spi_pulses len).flatMap (fun p => pin_pulse L (tbuf p.1) p.2) =
      (List.range len).flatMap (fun i => (List.range 8).reverse.flatMap (pin_pulse L (tbuf i))) := by
    unfold spi_pulses
    rw [List.flatMap_assoc]
    congr 1
  rw [spi_trace, List.filter_append, List.filter_append, h1, h2, filter_flatMap, h3]
  simp only [byte_trace_pins]

theorem spi_pulses_length (len : Nat) : (spi_pulses len).length = 8 * len := by
  induction len with
  | zero => rfl
  | succ n ih =>
    unfold spi_pulses at ih ⊢
    rw [List.range_succ, List.flatMap_append, List.length_append, ih]
    simp
    omega

theorem pulse_trace_reads (L : spi_pins) (b j : Nat) :
    (pulse_trace L b j).count (PinOp.read L.SPI_MISO_LINE) = 1 := by
  unfold pulse_trace
  split_ifs <;> simp [List.count_cons]

theorem count_flatMap_const {α β : Type} [DecidableEq β] (x : β) (f : α → List β) (c : Nat)
    (h : ∀ a, (f a).count x = c) (l : List α) : (l.flatMap f).count x = c * l.length := by
  induction l with
  | nil => simp
  | cons a l ih =>
    rw [List.flatMap_cons, List.count_append, h a, ih, List.length_cons]
    ring

theorem byte_trace_reads (L : spi_pins) (b : Nat) :
    (byte_trace L b).count (PinOp.read L.SPI_MISO_LINE) = 8 := by
  unfold byte_trace
  rw [List.count_cons, count_flatMap_const _ _ 1 (pulse_trace_reads L b)]
  simp

theorem spi_trace_reads (L : spi_pins) (tbuf : Nat → Nat) (len : Nat) :
    (spi_trace L tbuf len).count (PinOp.read L.SPI_MISO_LINE) = 8 * len := by
  unfold spi_trace
  rw [List.count_append, List.count_append,
    count_flatMap_const _ _ 8 (fun i => byte_trace_reads L (tbuf i))]
  simp

/-- C10. For every transmit buffer, every length `len` and every initial content
of the receive buffer, `spi_transfer` (with valid lines) logs: chip-select driven
low first; then for each byte `i` from 0 to `len - 1` and each bit `j` from 7
down to 0, data-out driven to bit `j` of `tbuf[i]`, the clock raised, data-in
sampled, the clock lowered; chip-select driven high last (delays apart). There are
`8 * len` clock pulses, each with one read of data-in, and on return bit `j` of
`rbuf[i]` is the data-in level of read `8 * i + (7 - j)` of the transfer for all
`i < len`, whatever `rbuf` held before; the cells from `len` on are unchanged. -/
theorem C10_spi_transfer_pin_trace (L : spi_pins) (lev : Nat → Nat) (tbuf rbuf : Nat → Nat)
    (len : Nat) (hw : GpioHw) (hL : valid_lines L) :
    ∃ rbuf1 hw1, spi_transfer L lev tbuf rbuf len hw = some (rbuf1, hw1) ∧
      hw1.trace = hw.trace ++ spi_trace L tbuf len ∧
      (spi_trace L tbuf len).filter (fun op => !op.is_delay) =
        [PinOp.clr (1 <<< L.SPI_CS_LINE.toNat)] ++
        (spi_pulses len).flatMap (fun p => pin_pulse L (tbuf p.1) p.2) ++
        [PinOp.set (1 <<< L.SPI_CS_LINE.toNat)] ∧
      (spi_pulses len).length = 8 * len ∧
      (spi_trace L tbuf len).count (PinOp.read L.SPI_MISO_LINE) = 8 * len ∧
      hw1.t = hw.t + 8 * len ∧
      (∀ i j, i < len → j < 8 →
        (rbuf1 i >>> j) &&& 1 = (lev (hw.t + (8 * i + (7 - j))) >>> L.SPI_MISO_LINE.toNat) &&& 1) ∧
      ∀ i, len ≤ i → rbuf1 i = rbuf i := by
  obtain ⟨rb1, hw1, hrun, ht, htr, hrb⟩ := spi_transfer_spec L lev tbuf rbuf len hw hL
  refine ⟨rb1, hw1, hrun, htr, spi_trace_pins L tbuf len, spi_pulses_length len,
    spi_trace_reads L tbuf len, ht, ?_, ?_⟩
  · intro i j hi hj
    rw [hrb i, if_pos hi, sampled_byte_bit L lev _ j hj, sampled_bit, Nat.add_assoc]
  · intro i hi
    rw [hrb i, if_neg (by omega)]

/-- C10, an instance: the default lines, the frame `{0x01, 0x80, 0x00}`, the
data-in line high at every read and a receive buffer holding `0xAA`. -/
theorem C10_instance :
    valid_lines spi_pins_default ∧
    ∃ rbuf1 hw1,
      spi_transfer spi_pins_default (fun _ => 1 <<< 16) (ofList [0x01, 0x80, 0x00] 0)
        (fun _ => 0xAA) 3 hw_init = some (rbuf1, hw1) ∧
      hw1.t = 24 ∧ (rbuf1 0 >>> 7) &&& 1 = 1 ∧ rbuf1 3 = 0xAA := by
  obtain ⟨rb1, hw1, hrun, _, _, _, _, ht, hbits, hrest⟩ :=
    C10_spi_transfer_pin_trace spi_pins_default (fun _ => 1 <<< 16) (ofList [0x01, 0x80, 0x00] 0)
      (fun _ => 0xAA) 3 hw_init (by decide)
  refine ⟨by decide, rb1, hw1, hrun, ?_, ?_, ?_⟩
  · rw [ht]; rfl
  · rw [hbits 0 7 (by norm_num) (by norm_num)]; decide
  · rw [hrest 3 (by norm_num)]

theorem mcp3008_value_eq (r : Nat → Nat) (h2 : r 2 < 256) :
    mcp3008_value r = (r 1 % 4) * 256 + r 2 ∧ mcp3008_value r ≤ 1023 := by
  have hor : (r 1 <<< 8) ||| r 2 = r 1 * 256 + r 2 := by
    have h := Nat.mul_add_lt_is_or (show r 2 < 2 ^ 8 by simpa using h2) (r 1)
    rw [Nat.shiftLeft_eq, Nat.mul_comm, ← h]
  have hand : ∀ x : Nat, x &&& 0x3FF = x % 1024 := by
    intro x
    exact Nat.and_pow_two_sub_one_eq_mod x 10
  unfold mcp3008_value
  rw [hor, hand]
  omega

theorem adc_raw_le (L : spi_pins) (lev : Nat → Nat) (t k : Nat) : adc_raw L lev t k ≤ 1023 :=
  (mcp3008_value_eq (adc_response L lev t k) (sampled_byte_lt L lev _)).2

theorem adc_frame_store (a b : Nat) (hb : b < 256) :
    store8 (adc_frame a) 1 b = adc_frame b := by
  funext k
  match k with
  | 0 => rfl
  | 1 => simp [store8, adc_frame, ofList, Nat.mod_eq_of_lt hb]
  | 2 => rfl
  | k + 3 => simp [store8, adc_frame, ofList]

theorem mk_mcp3008_read_packet_spec (L : spi_pins) (lev : Nat → Nat) (data : Nat → Nat)
    (hw : GpioHw) (hL : valid_lines L) :
    ∃ data1 hw1, mk_mcp3008_read_packet L lev data hw = some (data1, hw1) ∧
      hw1.t = hw.t + 96 ∧
      hw1.trace = hw.trace ++ spi_trace L (adc_frame 0x80) 3 ++ spi_trace L (adc_frame 0x90) 3 ++
        spi_trace L (adc_frame 0xa0) 3 ++ spi_trace L (adc_frame 0xb0) 3 ∧
      data1 = store16 (store16 (store16 (store16 data 13 (1023 - adc_raw L lev hw.t 1))
        14 (adc_raw L lev hw.t 0)) 15 (1023 - adc_raw L lev hw.t 3)) 16 (adc_raw L lev hw.t 2) := by
  obtain ⟨rb1, hw1, hrun1, ht1, htr1, hrb1⟩ :=
    spi_transfer_spec L lev (adc_frame 0x80) (ofList [0x00, 0x00, 0x00] 0) 3 hw hL
  obtain ⟨rb2, hw2, hrun2, ht2, htr2, hrb2⟩ :=
    spi_transfer_spec L lev (adc_frame 0x90) rb1 3 hw1 hL
  obtain ⟨rb3, hw3, hrun3, ht3, htr3, hrb3⟩ :=
    spi_transfer_spec L lev (adc_frame 0xa0) rb2 3 hw2 hL
  obtain ⟨rb4, hw4, hrun4, ht4, htr4, hrb4⟩ :=
    spi_transfer_spec L lev (adc_frame 0xb0) rb3 3 hw3 hL
  have hv : ∀ (rb : Nat → Nat) (t k : Nat),
      (∀ i, rb i = if i < 3 then sampled_byte L lev (t + 8 * i) else rb i) →
      t = hw.t + 24 * k → mcp3008_value rb = adc_raw L lev hw.t k := by
    intro rb t k h ht
    unfold adc_raw mcp3008_value adc_response
    rw [h 1, h 2, if_pos (by norm_num), if_pos (by norm_num), ht]
  have hv1 : mcp3008_value rb1 = adc_raw L lev hw.t 0 :=
    hv rb1 hw.t 0 (fun i => by rw [hrb1 i]; split_ifs <;> simp_all) (by omega)
  have hv2 : mcp3008_value rb2 = adc_raw L lev hw.t 1 :=
    hv rb2 hw1.t 1 (fun i => by rw [hrb2 i]; split_ifs <;> simp_all) (by omega)
  have hv3 : mcp3008_value rb3 = adc_raw L lev hw.t 2 :=
    hv rb3 hw2.t 2 (fun i => by rw [hrb3 i]; split_ifs <;> simp_all) (by omega)
  have hv4 : mcp3008_value rb4 = adc_raw L lev hw.t 3 :=
    hv rb4 hw3.t 3 (fun i => by rw [hrb4 i]; split_ifs <;> simp_all) (by omega)
  have hf1 : store8 (adc_frame 0x80) 1 0x90 = adc_frame 0x90 := adc_frame_store _ _ (by norm_num)
  have hf2 : store8 (adc_frame 0x90) 1 0xa0 = adc_frame 0xa0 := adc_frame_store _ _ (by norm_num)
  have hf3 : store8 (adc_frame 0xa0) 1 0xb0 = adc_frame 0xb0 := adc_frame_store _ _ (by norm_num)
  have hrun : mk_mcp3008_read_packet L lev data hw =
      some (store16 (store16 (store16 (store16 data 13 (1023 - mcp3008_value rb2))
        14 (mcp3008_value rb1)) 15 (1023 - mcp3008_value rb4)) 16 (mcp3008_value rb3), hw4) := by
    unfold mk_mcp3008_read_packet
    have e : ofList [0x01, 0x80, 0x00] 0 = adc_frame 0x80 := rfl
    simp only [e, hrun1, hf1, hrun2, hf2, hrun3, hf3, hrun4, Option.bind_eq_bind, Option.some_bind,
      Option.pure_def, mk_max_arcade_buttons]
  refine ⟨_, hw4, hrun, by omega, ?_, ?_⟩
  · rw [htr4, htr3, htr2, htr1]
  · rw [hv1, hv2, hv3, hv4]

theorem reportedAbs_analog (pad : mk_pad) (data : Nat → Nat) :
    reportedAbs .ABS_RY (mk_input_report pad data) = [(data 13 : Int)] ∧
    reportedAbs .ABS_RX (mk_input_report pad data) = [(data 14 : Int)] ∧
    reportedAbs .ABS_Y (mk_input_report pad data) = [(data 15 : Int)] ∧
    reportedAbs .ABS_X (mk_input_report pad data) = [(data 16 : Int)] := by
  rw [mk_input_report_eq]
  refine ⟨?_, ?_, ?_, ?_⟩ <;> split_ifs <;> simp [reportedAbs]

theorem stored_analog (data : Nat → Nat) (a b c d : Nat) (ha : a ≤ 1023) (hb : b ≤ 1023)
    (hc : c ≤ 1023) (hd : d ≤ 1023) :
    store16 (store16 (store16 (store16 data 13 a) 14 b) 15 c) 16 d 13 = a ∧
    store16 (store16 (store16 (store16 data 13 a) 14 b) 15 c) 16 d 14 = b ∧
    store16 (store16 (store16 (store16 data 13 a) 14 b) 15 c) 16 d 15 = c ∧
    store16 (store16 (store16 (store16 data 13 a) 14 b) 15 c) 16 d 16 = d ∧
    ∀ k, k < 13 → store16 (store16 (store16 (store16 data 13 a) 14 b) 15 c) 16 d k = data k := by
  refine ⟨?_, ?_, ?_, ?_, ?_⟩
  · simp [store16]; omega
  · simp [store16]; omega
  · simp [store16]; omega
  · simp [store16]; omega
  · intro k hk
    have h1 : ¬ k = 13 := by omega
    have h2 : ¬ k = 14 := by omega
    have h3 : ¬ k = 15 := by omega
    have h4 : ¬ k = 16 := by omega
    simp [store16, h1, h2, h3, h4]

/-- C3. The value `mk_mcp3008_read_packet` decodes from a response whose second
and third bytes `r1`, `r2` are in 0..255 is `((r1 << 8) | r2) & 0x3FF`, that is
`(r1 mod 4) * 256 + r2`, at most 1023; with valid lines the value stored for a
vertical axis (ry, y) is 1023 minus the value decoded from its response, the value
stored for a horizontal axis (rx, x) is the decoded value itself, and every
stored value lies in 0..1023. -/
theorem C3_adc_decode_and_store (L : spi_pins) (lev : Nat → Nat) (data : Nat → Nat)
    (hw : GpioHw) (hL : valid_lines L) :
    (∀ r : Nat → Nat, r 1 < 256 → r 2 < 256 →
      mcp3008_value r = ((r 1 <<< 8) ||| r 2) &&& 0x3FF ∧
      mcp3008_value r = (r 1 % 4) * 256 + r 2 ∧ mcp3008_value r ≤ 1023) ∧
    ∃ data1 hw1, mk_mcp3008_read_packet L lev data hw = some (data1, hw1) ∧
      (∀ k, adc_raw L lev hw.t k =
        (adc_response L lev hw.t k 1 % 4) * 256 + adc_response L lev hw.t k 2) ∧
      data1 (mk_max_arcade_buttons + 1) = 1023 - adc_raw L lev hw.t 1 ∧
      data1 (mk_max_arcade_buttons + 2) = adc_raw L lev hw.t 0 ∧
      data1 (mk_max_arcade_buttons + 3) = 1023 - adc_raw L lev hw.t 3 ∧
      data1 (mk_max_arcade_buttons + 4) = adc_raw L lev hw.t 2 ∧
      ∀ k, mk_max_arcade_buttons + 1 ≤ k → k ≤ mk_max_arcade_buttons + 4 → data1 k ≤ 1023 := by
  constructor
  · intro r _ h2
    exact ⟨rfl, mcp3008_value_eq r h2⟩
  · obtain ⟨d1, h1, hrun, _, _, hd⟩ := mk_mcp3008_read_packet_spec L lev data hw hL
    have hs := stored_analog data (1023 - adc_raw L lev hw.t 1) (adc_raw L lev hw.t 0)
      (1023 - adc_raw L lev hw.t 3) (adc_raw L lev hw.t 2) (by omega) (adc_raw_le L lev hw.t 0)
      (by omega) (adc_raw_le L lev hw.t 2)
    rw [← hd] at hs
    obtain ⟨s13, s14, s15, s16, _⟩ := hs
    have h0 := adc_raw_le L lev hw.t 0
    have h2 := adc_raw_le L lev hw.t 2
    refine ⟨d1, h1, hrun, ?_, s13, s14, s15, s16, ?_⟩
    · intro k
      exact (mcp3008_value_eq (adc_response L lev hw.t k) (sampled_byte_lt L lev _)).1
    · intro k hlo hhi
      simp only [mk_max_arcade_buttons] at hlo hhi
      interval_cases k
      · rw [s13]; omega
      · rw [s14]; exact h0
      · rw [s15]; omega
      · rw [s16]; exact h2

/-- C3, the scenario: the response `{0x00, 0x02, 0xFF}` to the request whose
result is `ry` decodes to 767 and is stored, on this vertical axis, as 256. -/
theorem C3_scenario :
    valid_lines spi_pins_default ∧
    adc_response spi_pins_default (scenario_adc_levels 24) 0 1 0 = 0x00 ∧
    adc_response spi_pins_default (scenario_adc_levels 24) 0 1 1 = 0x02 ∧
    adc_response spi_pins_default (scenario_adc_levels 24) 0 1 2 = 0xFF ∧
    adc_raw spi_pins_default (scenario_adc_levels 24) 0 1 = 767 ∧
    ∃ data1 hw1,
      mk_mcp3008_read_packet spi_pins_default (scenario_adc_levels 24) (fun _ => 0) hw_init =
        some (data1, hw1) ∧
      data1 13 = 256 := by
  obtain ⟨_, d1, h1, hrun, _, s13, _⟩ :=
    C3_adc_decode_and_store spi_pins_default (scenario_adc_levels 24) (fun _ => 0) hw_init
      (by decide)
  have hraw : adc_raw spi_pins_default (scenario_adc_levels 24) 0 1 = 767 := by decide
  refine ⟨by decide, by decide, by decide, by decide, hraw, d1, h1, hrun, ?_⟩
  have : d1 13 = 1023 - adc_raw spi_pins_default (scenario_adc_levels 24) hw_init.t 1 := s13
  rw [this]
  exact (by decide : 1023 - adc_raw spi_pins_default (scenario_adc_levels 24) 0 1 = 256)

/-- C4, as stated, fails: when the response to the first request (channel select
0) decodes to 767 and the other three decode to 0, the value reported as `ABS_RY`
is 1023, not `1023 - 767`; the result of channel 0 is reported as `ABS_RX`. -/
theorem C4_channel_0_is_not_reported_as_ry :
    adc_raw spi_pins_default (scenario_adc_levels 0) 0 0 = 767 ∧
    ∃ data1 hw1,
      mk_mcp3008_read_packet spi_pins_default (scenario_adc_levels 0) (fun _ => 0) hw_init =
        some (data1, hw1) ∧
      reportedAbs .ABS_RY (mk_input_report scenario_pad data1) = [1023] ∧
      reportedAbs .ABS_RY (mk_input_report scenario_pad data1) ≠
        [((1023 - adc_raw spi_pins_default (scenario_adc_levels 0) 0 0 : Nat) : Int)] ∧
      reportedAbs .ABS_RX (mk_input_report scenario_pad data1) = [767] := by
  obtain ⟨d1, h1, hrun, _, _, hd⟩ :=
    mk_mcp3008_read_packet_spec spi_pins_default (scenario_adc_levels 0) (fun _ => 0) hw_init
      (by decide)
  have h0 : adc_raw spi_pins_default (scenario_adc_levels 0) 0 0 = 767 := by decide
  have h1r : adc_raw spi_pins_default (scenario_adc_levels 0) 0 1 = 0 := by decide
  have ht : hw_init.t = 0 := rfl
  rw [ht, h0, h1r] at hd
  have h13 : d1 13 = 1023 := by rw [hd]; simp [store16]
  have h14 : d1 14 = 767 := by rw [hd]; simp [store16]
  obtain ⟨ry, rx, _, _⟩ := reportedAbs_analog scenario_pad d1
  refine ⟨h0, d1, h1, hrun, ?_, ?_, ?_⟩
  · rw [ry, h13]; rfl
  · rw [ry, h13, h0]; decide
  · rw [rx, h14]; rfl

/-- C4, amended. With valid lines `mk_mcp3008_read_packet` issues exactly four
request frames, in order `{0x01, 0x80 | ch << 4, 0x00}` for channel selects
`ch = 0, 1, 2, 3`; the result of channel 0 is the value reported as `ABS_RX`
(as-is), channel 1 as `ABS_RY` (inverted, `1023 - raw`), channel 2 as `ABS_X`
(as-is) and channel 3 as `ABS_Y` (inverted). -/
theorem C4_frames_and_channel_axes (L : spi_pins) (lev : Nat → Nat) (data : Nat → Nat)
    (hw : GpioHw) (pad : mk_pad) (hL : valid_lines L) :
    ∃ data1 hw1, mk_mcp3008_read_packet L lev data hw = some (data1, hw1) ∧
      hw1.trace = hw.trace ++
        (List.range 4).flatMap (fun ch => spi_trace L (ofList [0x01, 0x80 ||| (ch <<< 4), 0x00] 0) 3) ∧
      reportedAbs .ABS_RX (mk_input_report pad data1) = [(adc_raw L lev hw.t 0 : Int)] ∧
      reportedAbs .ABS_RY (mk_input_report pad data1) = [((1023 - adc_raw L lev hw.t 1 : Nat) : Int)] ∧
      reportedAbs .ABS_X (mk_input_report pad data1) = [(adc_raw L lev hw.t 2 : Int)] ∧
      reportedAbs .ABS_Y (mk_input_report pad data1) = [((1023 - adc_raw L lev hw.t 3 : Nat) : Int)] := by
  obtain ⟨d1, h1, hrun, _, htr, hd⟩ := mk_mcp3008_read_packet_spec L lev data hw hL
  have hs := stored_analog data (1023 - adc_raw L lev hw.t 1) (adc_raw L lev hw.t 0)
    (1023 - adc_raw L lev hw.t 3) (adc_raw L lev hw.t 2) (by omega) (adc_raw_le L lev hw.t 0)
    (by omega) (adc_raw_le L lev hw.t 2)
  rw [← hd] at hs
  obtain ⟨s13, s14, s15, s16, _⟩ := hs
  obtain ⟨ry, rx, y, x⟩ := reportedAbs_analog pad d1
  refine ⟨d1, h1, hrun, ?_, ?_, ?_, ?_, ?_⟩
  · rw [htr]
    have hr : List.range 4 = [0, 1, 2, 3] := by decide
    rw [hr]
    simp [adc_frame, List.flatMap_cons]
  · rw [rx, s14]
  · rw [ry, s13]
  · rw [x, s16]
  · rw [y, s15]

/-- C4, an instance: the default lines and the levels of the ADC scenario. -/
theorem C4_instance :
    valid_lines spi_pins_default ∧
    ∃ data1 hw1,
      mk_mcp3008_read_packet spi_pins_default (scenario_adc_levels 0) (fun _ => 0) hw_init =
        some (data1, hw1) ∧
      reportedAbs .ABS_RX (mk_input_report scenario_pad data1) = [767] ∧
      reportedAbs .ABS_RY (mk_input_report scenario_pad data1) = [1023] := by
  obtain ⟨d1, h1, hrun, _, rx, ry, _, _⟩ :=
    C4_frames_and_channel_axes spi_pins_default (scenario_adc_levels 0) (fun _ => 0) hw_init
      scenario_pad (by decide)
  have h0 : adc_raw spi_pins_default (scenario_adc_levels 0) hw_init.t 0 = 767 := by decide
  have h1r : adc_raw spi_pins_default (scenario_adc_levels 0) hw_init.t 1 = 0 := by decide
  rw [h0] at rx
  rw [h1r] at ry
  exact ⟨by decide, d1, h1, hrun, rx, ry⟩

/-- C5. The local array of `mk_process_packet` has 16 cells, indices 0..15. In a
pass over the scenario pad with every pin high and every cell holding 7 on entry,
cell 12 is never written and still holds 7, the four analog results are stored in
cells 13, 14, 15 and 16, and `ABS_X` is reported from cell 16, which is outside the
array. -/
theorem C5_analog_results_are_in_cells_13_to_16 :
    mk_process_packet_data_len = 16 ∧
    (mk_process_packet spi_pins_default (fun _ => 0xFFFFFFFF) scenario_pads (fun _ => 7)
        hw_init).map
      (fun r => [r.2.1 12, r.2.1 13, r.2.1 14, r.2.1 15, r.2.1 16]) =
      some [7, 0, 1023, 0, 1023] ∧
    (mk_process_packet spi_pins_default (fun _ => 0xFFFFFFFF) scenario_pads (fun _ => 7)
        hw_init).map (fun r => reportedAbs .ABS_X r.1) = some [1023] ∧
    ¬ (mk_max_arcade_buttons + 4 < mk_process_packet_data_len) := by
  refine ⟨by decide, by decide, by decide, by decide⟩

theorem mk_process_packet_body_spec (L : spi_pins) (lev : Nat → Nat) (pads : Nat → mk_pad)
    (hL : valid_lines L) (i : Nat) (hmap : live_pad (pads i) → valid_map (pads i).gpio_maps)
    (evs : List InputEvent) (data : Nat → Nat) (hw : GpioHw) :
    ∃ buf data1 hw1,
      mk_process_packet_body L lev pads (evs, data, hw) i =
        some (evs ++ (if live_pad (pads i) then mk_input_report (pads i) buf else []),
          data1, hw1) := by
  by_cases hlive : live_pad (pads i)
  · obtain ⟨d1, h1, hrun1, _, _⟩ :=
      mk_gpio_read_packet_loop (pads i) lev (hmap hlive) 12 (le_refl _) data hw
    obtain ⟨d2, h2, hrun2, _, _, _⟩ := mk_mcp3008_read_packet_spec L lev d1 h1 hL
    have hrun1' : mk_gpio_read_packet (pads i) lev data hw = some (d1, h1) := hrun1
    refine ⟨d2, d2, h2, ?_⟩
    have hl : (pads i).type = MK_ARCADE_GPIO ∨ (pads i).type = MK_ARCADE_GPIO_BPLUS ∨
        (pads i).type = MK_ARCADE_GPIO_CUSTOM := hlive
    simp only [mk_process_packet_body, hl, hlive, if_true, hrun1', hrun2, Option.bind_eq_bind,
      Option.some_bind, Option.pure_def]
  · refine ⟨data, data, hw, ?_⟩
    have hl : ¬ ((pads i).type = MK_ARCADE_GPIO ∨ (pads i).type = MK_ARCADE_GPIO_BPLUS ∨
        (pads i).type = MK_ARCADE_GPIO_CUSTOM) := hlive
    simp only [mk_process_packet_body, hl, hlive, if_false, List.append_nil]

theorem mk_process_packet_spec (L : spi_pins) (lev : Nat → Nat) (pads : Nat → mk_pad)
    (data : Nat → Nat) (hw : GpioHw) (hL : valid_lines L)
    (hmaps : ∀ i, i < MK_MAX_DEVICES → live_pad (pads i) → valid_map (pads i).gpio_maps) :
    ∃ (evs : List InputEvent) (data1 : Nat → Nat) (hw1 : GpioHw) (bufs : Nat → Nat → Nat), mk_process_packet L lev pads data hw = some (evs, data1, hw1) ∧
      evs = ((List.range MK_MAX_DEVICES).filter (fun i => decide (live_pad (pads i)))).flatMap
        (fun i => mk_input_report (pads i) (bufs i)) := by
  obtain ⟨b0, d0, h0, hrun0⟩ := mk_process_packet_body_spec L lev pads hL 0
    (hmaps 0 (by decide)) [] data hw
  obtain ⟨b1, d1, h1, hrun1⟩ := mk_process_packet_body_spec L lev pads hL 1
    (hmaps 1 (by decide)) ([] ++ (if live_pad (pads 0) then mk_input_report (pads 0) b0 else []))
    d0 h0
  have hr : List.range MK_MAX_DEVICES = [0, 1] := by decide
  refine ⟨([] ++ (if live_pad (pads 0) then mk_input_report (pads 0) b0 else [])) ++
      (if live_pad (pads 1) then mk_input_report (pads 1) b1 else []), d1, h1,
    fun i => if i = 0 then b0 else b1, ?_, ?_⟩
  · unfold mk_process_packet
    rw [hr, List.foldlM_cons, hrun0]
    simp only [Option.bind_eq_bind, Option.some_bind, List.foldlM_cons, hrun1, List.foldlM_nil,
      Option.pure_def]
  · rw [hr]
    by_cases l0 : live_pad (pads 0) <;> by_cases l1 : live_pad (pads 1) <;>
      simp [l0, l1, List.filter_cons]

/-- C8, as stated, fails: one report makes 19 calls to the event sink, not 17;
the first six are the four D-pad key events and the two hat axis events. -/
theorem C8_report_is_not_17_calls :
    (mk_input_report scenario_pad (fun _ => 0)).length = 19 ∧
    ¬ ((mk_input_report scenario_pad (fun _ => 0)).length = 17) ∧
    (mk_input_report scenario_pad (fun _ => 0)).take 6 =
      [InputEvent.key 1 .BTN_DPAD_UP 0, InputEvent.key 1 .BTN_DPAD_DOWN 0,
       InputEvent.key 1 .BTN_DPAD_LEFT 0, InputEvent.key 1 .BTN_DPAD_RIGHT 0,
       InputEvent.abs 1 .ABS_HAT0Y 0, InputEvent.abs 1 .ABS_HAT0X 0] := by
  decide

/-- C8, amended. For every sample buffer the calls `mk_input_report` makes for one
pad in one tick are exactly: 4 D-pad key events (`BTN_DPAD_UP`, `BTN_DPAD_DOWN`,
`BTN_DPAD_LEFT`, `BTN_DPAD_RIGHT`) and 2 hat axis events (`ABS_HAT0Y`,
`ABS_HAT0X`), then 4 analog axis events (`ABS_RY`, `ABS_RX`, `ABS_Y`, `ABS_X`), then
8 button events in the order of the button table, carrying slots 4..11, then 1
sync marker: 19 calls in total, the sync last; with valid lines and pin maps
`mk_process_packet` produces this batch once for each pad whose type is one of the
three pad types, in pad order. -/
theorem C8_report_batch_of_19_calls (L : spi_pins) (lev : Nat → Nat) (pads : Nat → mk_pad)
    (data : Nat → Nat) (hw : GpioHw) (hL : valid_lines L)
    (hmaps : ∀ i, i < MK_MAX_DEVICES → live_pad (pads i) → valid_map (pads i).gpio_maps) :
    (∀ (pad : mk_pad) (d : Nat → Nat), ∃ u dn l r : Int,
      mk_input_report pad d =
        [InputEvent.key pad.dev .BTN_DPAD_UP u, InputEvent.key pad.dev .BTN_DPAD_DOWN dn,
         InputEvent.key pad.dev .BTN_DPAD_LEFT l, InputEvent.key pad.dev .BTN_DPAD_RIGHT r,
         InputEvent.abs pad.dev .ABS_HAT0Y (lnot (d 0) - lnot (d 1)),
         InputEvent.abs pad.dev .ABS_HAT0X (lnot (d 2) - lnot (d 3)),
         InputEvent.abs pad.dev .ABS_RY (d 13), InputEvent.abs pad.dev .ABS_RX (d 14),
         InputEvent.abs pad.dev .ABS_Y (d 15), InputEvent.abs pad.dev .ABS_X (d 16),
         InputEvent.key pad.dev .BTN_START (d 4), InputEvent.key pad.dev .BTN_SELECT (d 5),
         InputEvent.key pad.dev .BTN_EAST (d 6), InputEvent.key pad.dev .BTN_SOUTH (d 7),
         InputEvent.key pad.dev .BTN_TR (d 8), InputEvent.key pad.dev .BTN_WEST (d 9),
         InputEvent.key pad.dev .BTN_NORTH (d 10), InputEvent.key pad.dev .BTN_TL (d 11),
         InputEvent.sync pad.dev] ∧
      (mk_input_report pad d).length = 19) ∧
    ∃ (evs : List InputEvent) (data1 : Nat → Nat) (hw1 : GpioHw) (bufs : Nat → Nat → Nat), mk_process_packet L lev pads data hw = some (evs, data1, hw1) ∧
      evs = ((List.range MK_MAX_DEVICES).filter (fun i => decide (live_pad (pads i)))).flatMap
        (fun i => mk_input_report (pads i) (bufs i)) := by
  constructor
  · intro pad d
    rw [mk_input_report_eq]
    split_ifs <;> exact ⟨_, _, _, _, rfl, rfl⟩
  · exact mk_process_packet_spec L lev pads data hw hL hmaps

/-- C8, an instance: the default lines, pad 0 the scenario pad and pad 1 not
configured: one batch of 19 calls. -/
theorem C8_instance :
    valid_lines spi_pins_default ∧
    (∀ i, i < MK_MAX_DEVICES → live_pad (scenario_pads i) →
      valid_map (scenario_pads i).gpio_maps) ∧
    (mk_input_report scenario_pad (fun _ => 0)).length = 19 ∧
    ∃ (evs : List InputEvent) (data1 : Nat → Nat) (hw1 : GpioHw) (bufs : Nat → Nat → Nat),
      mk_process_packet spi_pins_default (fun _ => 0) scenario_pads (fun _ => 0) hw_init =
        some (evs, data1, hw1) ∧
      evs = mk_input_report scenario_pad (bufs 0) := by
  have hv : ∀ i, i < MK_MAX_DEVICES → live_pad (scenario_pads i) →
      valid_map (scenario_pads i).gpio_maps := by
    intro i hi hl
    have h2 : i < 2 := hi
    interval_cases i
    · exact scenario_pad_valid
    · exact absurd hl (by decide)
  obtain ⟨hrep, evs, d1, h1, bufs, hrun, hevs⟩ :=
    C8_report_batch_of_19_calls spi_pins_default (fun _ => 0) scenario_pads (fun _ => 0) hw_init
      (by decide) hv
  obtain ⟨_, _, _, _, _, hlen⟩ := hrep scenario_pad (fun _ => 0)
  refine ⟨by decide, hv, hlen, evs, d1, h1, bufs, hrun, ?_⟩
  rw [hevs]
  have hf : (List.range MK_MAX_DEVICES).filter (fun i => decide (live_pad (scenario_pads i))) =
      [0] := by decide
  rw [hf]
  simp [scenario_pads]

/-- C9. With pad type `MK_MAX = 4`, which is not one of the three pad types,
`mk_setup_pad` does not return `-EINVAL`: it allocates and registers an input
device, sets the pad's type to 4, increments `pad_count[4]` (one past the end of
that array, the cell of `used`, which becomes 1) and returns 0; the same happens
for pad type 7. The types below 1
and a custom pad with 11 pin entries are rejected with `-EINVAL` before any
device is allocated. -/
theorem C9_pad_type_MK_MAX_is_accepted :
    (mk_setup_pad mk_zero 0 MK_MAX gpio_config_none spi_config_none spi_pins_default 5 0
        hw_init).map (fun r => (r.ret, r.core)) =
      some (0, [CoreOp.allocate, CoreOp.register 5]) ∧
    (mk_setup_pad mk_zero 0 MK_MAX gpio_config_none spi_config_none spi_pins_default 5 0
        hw_init).map (fun r => ((r.m.pads 0).type, (r.m.pads 0).dev, r.m.pad_count 4)) =
      some (4, 5, 1) ∧
    (mk_setup_pad mk_zero 0 MK_MAX gpio_config_none spi_config_none spi_pins_default 5 0
        hw_init).map (fun r => r.m.used) = some 1 ∧
    (mk_setup_pad mk_zero 0 7 gpio_config_none spi_config_none spi_pins_default 5 0
        hw_init).map (fun r => (r.ret, r.core, (r.m.pads 0).type)) =
      some (0, [CoreOp.allocate, CoreOp.register 5], 7) ∧
    (mk_setup_pad mk_zero 0 0 gpio_config_none spi_config_none spi_pins_default 5 0
        hw_init).map (fun r => (r.ret, r.core, (r.m.pads 0).type)) = some (-EINVAL, [], 0) ∧
    (mk_setup_pad mk_zero 0 MK_ARCADE_GPIO_CUSTOM
        { mk_arcade_gpio_maps_custom := ofList [4, 17, 27, 22, 10, 9, 25, 24, 23, 18, 15] 0,
          nargs := 11 }
        spi_config_none spi_pins_default 5 0 hw_init).map
      (fun r => (r.ret, r.core, (r.m.pads 0).type)) = some (-EINVAL, [], 0) := by
  refine ⟨by decide, by decide, by decide, by decide, by decide, by decide⟩

end MkArcade
